import Mathlib

/-!
Verification development for the crowd-hydrodynamics SPH engine.

The definitions below are shallow embeddings of the TypeScript sources:
* `src/src/physics/ParticleGrid.ts` (spatial grid, half-neighbor pairwise iteration),
* `src/src/physics/sph.ts` (particles, kernels, boundary handling, sources, sinks,
  the per-tick `doPhysics` pipeline, query API),
* `src/src/physics/StaticObject.ts` (signed-distance obstacles),
* the `ParticleSource` / `ParticleSink` classes kept in the repository,
* the earlier engine revision appended to `src/physics/util.ts` (`Engine.setNumParticles`).

Machine floats are modelled as exact ordered-field numbers: the spatial grid is
polymorphic over a `LinearOrderedField` with floor (instantiated at `ℚ` for concrete
evaluation), and the particle physics, which involves `π`, square roots and cosine,
is modelled over `ℝ`.  JavaScript division by zero (`Infinity`/`NaN`) is the usual
total field division; no statement below evaluates a division at a zero denominator.
-/

namespace CrowdHydro

/-! ### Spatial grid combinatorics, from `src/src/physics/ParticleGrid.ts`

Cells are identified by their flat array index `idxAt(i, j) = i + j * nx`.
A cell's particle store `c.particles[0 .. c.numParticles)` is modelled as a
`List ℕ` of particle identifiers; `occ : ℕ → List ℕ` gives the store of every
flat cell index. -/

/-- Inclusive range `[a, b]` of naturals: the loop
`for (let ii = max(0, i-1); ii <= min(nx-1, i+1); ii++)` of the grid constructor. -/
def rangeIncl (a b : Nat) : List Nat := (List.range (b + 1 - a)).map (a + ·)

/-- Neighbor precomputation of `ParticleGrid`'s constructor for cell `(i, j)`:
the right neighbor `(i+1, j)` when `i < nx - 1`, then the above-row neighbors
`(max 0 (i-1), j+1) .. (min (nx-1) (i+1), j+1)` when `j < ny - 1`
(`c.neighborsTR`).  Natural subtraction renders JavaScript's `max(0, i-1)`. -/
def neighborsTR (nx ny i j : Nat) : List (Nat × Nat) :=
  (if i < nx - 1 then [(i + 1, j)] else []) ++
    (if j < ny - 1 then (rangeIncl (i - 1) (min (nx - 1) (i + 1))).map (fun ii => (ii, j + 1))
     else [])

/-- The interaction pairs visited from one particle `p1` of a cell by
`ParticleGrid.pairwise`: first the same-cell particles after `p1`
(`for (let j = i + 1; ...)`), then every particle of every half-neighbor cell. -/
def visitFrom (p1 : Nat) (rest : List Nat) (nbs : List (List Nat)) : List (Nat × Nat) :=
  rest.map (fun q => (p1, q)) ++ nbs.flatMap (fun nb => nb.map (fun q => (p1, q)))

/-- All pairs visited from one cell (the `for (let i = 0; i < c.numParticles; i++)`
loop of `ParticleGrid.pairwise`). -/
def cellCalls : List Nat → List (List Nat) → List (Nat × Nat)
  | [], _ => []
  | p :: ps, nbs => visitFrom p ps nbs ++ cellCalls ps nbs

/-- The full list of interaction invocations of `ParticleGrid.pairwise`:
the flat cell array is iterated in index order, which is row-major
(`j` outer, `i` inner), and each cell contributes its `cellCalls` with the
occupancy of its precomputed half-neighbors. -/
def pairwiseCalls (nx ny : Nat) (occ : Nat → List Nat) : List (Nat × Nat) :=
  (List.range ny).flatMap fun j =>
    (List.range nx).flatMap fun i =>
      cellCalls (occ (i + j * nx))
        ((neighborsTR nx ny i j).map (fun c => occ (c.1 + c.2 * nx)))

/-- Number of times an unordered pair `{p, q}` appears in an invocation list. -/
def countPair (p q : Nat) (l : List (Nat × Nat)) : Nat :=
  l.count (p, q) + l.count (q, p)

/-- Two grid cells are the same or touching (the "same cell or neighboring cells"
relation of the half-neighbor design: Chebyshev distance at most 1). -/
def adjCell (c d : Nat × Nat) : Prop :=
  (c.1 = d.1 ∨ c.1 + 1 = d.1 ∨ d.1 + 1 = c.1) ∧ (c.2 = d.2 ∨ c.2 + 1 = d.2 ∨ d.2 + 1 = c.2)

instance (c d : Nat × Nat) : Decidable (adjCell c d) := by unfold adjCell; infer_instance

/-! ### The spatial grid itself, from `src/src/physics/ParticleGrid.ts`

The grid is generic over the coordinate field (the source is generic over the
particle type; particle positions enter `addParticle` through `p1.x`, `p1.y`,
which we pass explicitly together with the particle identifier). -/

/-- State of `ParticleGrid`: dimensions `nx × ny`, world extent `w × h`, the
constructor-recorded `cellCapacity`, and the flat cell array.  Only indices
`< nx * ny` denote existing cells; `cells d` is the list of references stored
in slots `0 .. numParticles` of cell `d`. -/
structure PGrid (R : Type) where
  nx : Nat
  ny : Nat
  w : R
  h : R
  cellCapacity : Nat
  cells : Nat → List Nat

section GridOps

variable {R : Type} [LinearOrderedField R] [FloorRing R]

/-- `getCellFromLocation(x, y)` resolves `Math.floor(nx*x/w)`, `Math.floor(ny*y/h)`
and returns the flat index `idxAt(i, j) = i + j * nx` it will read.
JavaScript array lookup yields `undefined` exactly when this flat index is
outside `[0, nx*ny)`. -/
def getCellIdx (g : PGrid R) (x y : R) : Int :=
  ⌊(g.nx : R) * x / g.w⌋ + ⌊(g.ny : R) * y / g.h⌋ * (g.nx : Int)

/-- `ParticleGrid.addParticle`: `const c = this.getCellFromLocation(p1.x, p1.y);
if (c) c.particles[c.numParticles++] = p1;` — when the flat index denotes an
existing cell the reference is stored unconditionally (JavaScript arrays grow on
write, so there is no capacity test), otherwise nothing happens. -/
def addParticle (g : PGrid R) (x y : R) (pid : Nat) : PGrid R :=
  let idx := getCellIdx g x y
  if 0 ≤ idx ∧ idx < (g.nx : Int) * (g.ny : Int) then
    { g with cells := Function.update g.cells idx.toNat (g.cells idx.toNat ++ [pid]) }
  else g

/-- `ParticleGrid.reset`: every cell count drops to zero (stored slots become dead). -/
def gridReset (g : PGrid R) : PGrid R := { g with cells := fun _ => [] }

end GridOps

/-! ### Smoothing kernels and particle state, from `src/src/physics/sph.ts` -/

/-- Kernel support radius `const H = 1`. -/
noncomputable def H : ℝ := 1

/-- `const H2 = H * H`. -/
noncomputable def H2 : ℝ := H * H

/-- `const H5 = Math.pow(H, 5)`. -/
noncomputable def H5 : ℝ := H ^ 5

/-- `const H6 = Math.pow(H, 6)`. -/
noncomputable def H6 : ℝ := H ^ 6

/-- `const H9 = Math.pow(H, 9)`. -/
noncomputable def H9 : ℝ := H ^ 9

/-- `const Wpoly6_coeff = 315.0 / (64 * Math.PI * H9)`. -/
noncomputable def Wpoly6_coeff : ℝ := 315 / (64 * Real.pi * H9)

/-- Poly6 kernel: `Wpoly6(r2) = Wpoly6_coeff * (H2 - r2)^3`. -/
noncomputable def Wpoly6 (r2 : ℝ) : ℝ :=
  let t := H2 - r2
  Wpoly6_coeff * t * t * t

/-- `const Wspiky_grad_coeff = 45.0 / (Math.PI * H6)` (the final revision's
positive sign). -/
noncomputable def Wspiky_grad_coeff : ℝ := 45 / (Real.pi * H6)

/-- Spiky gradient helper: `Wspiky_grad2(r) = Wspiky_grad_coeff * (H - r)^2 / r`. -/
noncomputable def Wspiky_grad2 (r : ℝ) : ℝ :=
  let t := H - r
  Wspiky_grad_coeff * t * t / r

/-- `const Wvisc_lapl_coeff = 45.0 / (Math.PI * H5)`. -/
noncomputable def Wvisc_lapl_coeff : ℝ := 45 / (Real.pi * H5)

/-- Viscous Laplacian kernel: `Wvisc_lapl(r) = Wvisc_lapl_coeff * (1 - r/H)`. -/
noncomputable def Wvisc_lapl (r : ℝ) : ℝ := Wvisc_lapl_coeff * (1 - r / H)

/-- 2D vector (`vec2` of `src/src/physics/types/util.ts`). -/
structure Vec2 where
  x : ℝ
  y : ℝ

/-- `SPHParticle` state: position, velocity and force accumulator (through
`DynamicObject`), per-particle mass `M`, pressure `P` and local density `rho`. -/
@[ext]
structure SPHParticle where
  x : ℝ
  y : ℝ
  Vx : ℝ
  Vy : ℝ
  Fx : ℝ
  Fy : ℝ
  M : ℝ
  P : ℝ
  rho : ℝ

instance : Inhabited SPHParticle := ⟨⟨0, 0, 0, 0, 0, 0, 0, 0, 0⟩⟩

/-- The engine's fluid globals `M`, `K`, `RHO0`, `MU`
(set by `Simulation.setFluidProperties`). -/
structure Params where
  M : ℝ
  K : ℝ
  RHO0 : ℝ
  MU : ℝ

/-- Domain bounds `xmin`, `ymin`, `xmax`, `ymax`. -/
structure Bounds where
  xmin : ℝ
  ymin : ℝ
  xmax : ℝ
  ymax : ℝ

/-- Squared distance `dist2` from `src/src/physics/util.ts`:
`dx*dx + dy*dy` with `dx = p2.x - p1.x`, `dy = p2.y - p1.y`. -/
noncomputable def dist2 (p1 p2 : SPHParticle) : ℝ :=
  (p2.x - p1.x) * (p2.x - p1.x) + (p2.y - p1.y) * (p2.y - p1.y)

/-- three.js `Vector2.clampLength(min, max)`:
`divideScalar(length || 1).multiplyScalar(Math.max(min, Math.min(max, length)))`. -/
noncomputable def clampLength (v : Vec2) (lo hi : ℝ) : Vec2 :=
  let len := Real.sqrt (v.x * v.x + v.y * v.y)
  let denom := if len = 0 then 1 else len
  ⟨v.x / denom * max lo (min hi len), v.y / denom * max lo (min hi len)⟩

/-- `SPHParticle.reset`: zero the force accumulator and restore the density
baseline `this.M * Wpoly6(0)`. -/
noncomputable def particleReset (p : SPHParticle) : SPHParticle :=
  { p with Fx := 0, Fy := 0, rho := p.M * Wpoly6 0 }

/-- `SPHParticle.update(dt)`: acceleration `force / rho`, velocity update with
`clampLength(0, 10)`, position update by `velocity * dt`, then `reset()`.
No clamping of the position ever happens here. -/
noncomputable def particleUpdate (dt : ℝ) (p : SPHParticle) : SPHParticle :=
  let ax := p.Fx / p.rho
  let ay := p.Fy / p.rho
  let v := clampLength ⟨p.Vx + ax * dt, p.Vy + ay * dt⟩ 0 10
  particleReset { p with Vx := v.x, Vy := v.y, x := p.x + v.x * dt, y := p.y + v.y * dt }

/-! ### Boundary handling, `HandleBoundaryCollisions` of `src/src/physics/sph.ts`

The source computes `l`, `b`, `t`, `r` from the particle before any branch and
then runs four sequential `if (d < H) {force} else if (d <= 0) {reflect}`
statements.  `P`, `rho` and the position are never modified, so the `repulsion`
closure reads the same values throughout; the running particle accumulates the
force/velocity writes. -/

/-- The `repulsion` closure: `Math.abs((M * p1.P / p1.rho) * Wspiky_grad2(d) * d)`. -/
noncomputable def repulsion (pr : Params) (p : SPHParticle) (d : ℝ) : ℝ :=
  |pr.M * p.P / p.rho * Wspiky_grad2 d * d|

/-- `if (l < H) {p1.Fx += repulsion(l)} else if (l <= 0) {p1.Vx = -p1.Vx}`
with `l = p1.x - xmin`. -/
noncomputable def bStepL (bd : Bounds) (pr : Params) (p0 p : SPHParticle) : SPHParticle :=
  if p0.x - bd.xmin < H then { p with Fx := p.Fx + repulsion pr p0 (p0.x - bd.xmin) }
  else if p0.x - bd.xmin ≤ 0 then { p with Vx := -p.Vx } else p

/-- `if (b < H) {p1.Fy += repulsion(b)} else if (b <= 0) {p1.Vy = -p1.Vy}`
with `b = p1.y - ymin`. -/
noncomputable def bStepB (bd : Bounds) (pr : Params) (p0 p : SPHParticle) : SPHParticle :=
  if p0.y - bd.ymin < H then { p with Fy := p.Fy + repulsion pr p0 (p0.y - bd.ymin) }
  else if p0.y - bd.ymin ≤ 0 then { p with Vy := -p.Vy } else p

/-- `if (t < H) {p1.Fy -= repulsion(t)} else if (t <= 0) {p1.Vy = -p1.Vy}`
with `t = ymax - p1.y`. -/
noncomputable def bStepT (bd : Bounds) (pr : Params) (p0 p : SPHParticle) : SPHParticle :=
  if bd.ymax - p0.y < H then { p with Fy := p.Fy - repulsion pr p0 (bd.ymax - p0.y) }
  else if bd.ymax - p0.y ≤ 0 then { p with Vy := -p.Vy } else p

/-- `if (r < H) {p1.Fx -= repulsion(r)} else if (r <= 0) {p1.Vx = -p1.Vx}`
with `r = xmax - p1.x`. -/
noncomputable def bStepR (bd : Bounds) (pr : Params) (p0 p : SPHParticle) : SPHParticle :=
  if bd.xmax - p0.x < H then { p with Fx := p.Fx - repulsion pr p0 (bd.xmax - p0.x) }
  else if bd.xmax - p0.x ≤ 0 then { p with Vx := -p.Vx } else p

/-- `HandleBoundaryCollisions(p1)`: the four side statements in source order
(left, bottom, top, right). -/
noncomputable def HandleBoundaryCollisions (bd : Bounds) (pr : Params)
    (p : SPHParticle) : SPHParticle :=
  bStepR bd pr p (bStepT bd pr p (bStepB bd pr p (bStepL bd pr p p)))

/-! ### Static obstacles, from `src/src/physics/StaticObject.ts` -/

/-- `StaticCircle` / `StaticPlane` (axis-aligned rectangle with lower-left
corner `pos` and dimensions `width × height`). -/
inductive StaticObject where
  | circle (pos : Vec2) (radius : ℝ)
  | plane (pos : Vec2) (width height : ℝ)

/-- `StaticObject.distanceTo`: signed distance, negative strictly inside. -/
noncomputable def distanceTo (o : StaticObject) (p : Vec2) : ℝ :=
  match o with
  | .circle c radius =>
    Real.sqrt ((p.x - c.x) * (p.x - c.x) + (p.y - c.y) * (p.y - c.y)) - radius
  | .plane pos width height =>
    let top := pos.y + height
    let left := pos.x
    let bottom := pos.y
    let right := pos.x + width
    if left ≤ p.x ∧ p.x ≤ right ∧ bottom ≤ p.y ∧ p.y ≤ top then
      -(min (min (p.x - left) (right - p.x)) (min (p.y - bottom) (top - p.y)))
    else
      let dx := max (max (left - p.x) 0) (p.x - right)
      let dy := max (max (bottom - p.y) 0) (p.y - top)
      Real.sqrt (dx * dx + dy * dy)

/-- `const EPS = 1e-4`. -/
noncomputable def EPS : ℝ := 1e-4

/-- One obstacle iteration of `HandleObstacleCollisions`: when strictly inside,
project the position to the surface plus a `0.01` margin along the
finite-difference normal, and if the normal velocity points inward, replace the
velocity by the tangential part scaled by the friction coefficient `0`. -/
noncomputable def obstacleCollide (o : StaticObject) (p : SPHParticle) : SPHParticle :=
  let distance := distanceTo o ⟨p.x, p.y⟩
  if distance < 0 then
    let dx := (distanceTo o ⟨p.x + EPS, p.y⟩ - distance) / EPS
    let dy := (distanceTo o ⟨p.x, p.y + EPS⟩ - distance) / EPS
    let gradMag := Real.sqrt (dx * dx + dy * dy) + EPS
    let nx := dx / gradMag
    let ny := dy / gradMag
    let correctionDistance := -distance + 1 / 100
    let moved := { p with x := p.x + nx * correctionDistance, y := p.y + ny * correctionDistance }
    let normalVel := p.Vx * nx + p.Vy * ny
    let tangentVx := p.Vx - normalVel * nx
    let tangentVy := p.Vy - normalVel * ny
    if normalVel < 0 then { moved with Vx := tangentVx * 0, Vy := tangentVy * 0 } else moved
  else p

/-- `HandleObstacleCollisions(p1)`: every collider in sequence. -/
noncomputable def HandleObstacleCollisions (objs : List StaticObject)
    (p : SPHParticle) : SPHParticle :=
  objs.foldl (fun q o => obstacleCollide o q) p

/-! ### Pair interactions and the density/pressure/force passes -/

/-- `addDensity(p1, p2)`: when `dist2 < H2`, both densities grow by the same
`val = M * Wpoly6(r2)` (the global particle-mass parameter `M`). -/
noncomputable def addDensity (pr : Params) (p1 p2 : SPHParticle) :
    SPHParticle × SPHParticle :=
  let r2 := dist2 p1 p2
  if r2 < H2 then
    let val := pr.M * Wpoly6 r2
    ({ p1 with rho := p1.rho + val }, { p2 with rho := p2.rho + val })
  else (p1, p2)

/-- `addForces(p1, p2)`: pressure and viscosity pair forces, applied equal and
opposite; only `p2`'s density divides (the source's documented asymmetry). -/
noncomputable def addForces (pr : Params) (p1 p2 : SPHParticle) :
    SPHParticle × SPHParticle :=
  let r2 := dist2 p1 p2
  if r2 < H2 then
    let r := Real.sqrt r2 + 1e-6
    let fPress := pr.M * (p1.P + p2.P) / (2 * p2.rho) * Wspiky_grad2 r
    let dx := p1.x - p2.x
    let dy := p1.y - p2.y
    let fVisc := pr.MU * pr.M * Wvisc_lapl r / p2.rho
    let fx := dx * fPress + fVisc * (p2.Vx - p1.Vx)
    let fy := dy * fPress + fVisc * (p2.Vy - p1.Vy)
    ({ p1 with Fx := p1.Fx + fx, Fy := p1.Fy + fy },
     { p2 with Fx := p2.Fx - fx, Fy := p2.Fy - fy })
  else (p1, p2)

/-- Replay a `ParticleGrid.pairwise` invocation list over the particle array:
each visited pair `(i, j)` applies the interaction to the current values of
particles `i` and `j` and stores the results back (the source mutates the two
shared particle objects in place). -/
def applyPairs (f : SPHParticle → SPHParticle → SPHParticle × SPHParticle) :
    List (Nat × Nat) → List SPHParticle → List SPHParticle
  | [], arr => arr
  | ij :: rest, arr =>
    let a := arr.getD ij.1 default
    let b := arr.getD ij.2 default
    let fab := f a b
    applyPairs f rest ((arr.set ij.1 fab.1).set ij.2 fab.2)

/-- The pressure update of `Simulation.doPhysics`:
`particles.forEach(p => { p.P = Math.max(K * (p.rho - RHO0), 0); })`. -/
noncomputable def pressurePass (pr : Params) (ps : List SPHParticle) : List SPHParticle :=
  ps.map (fun p => { p with P := max (pr.K * (p.rho - pr.RHO0)) 0 })

/-! ### Particle sources, `HandleParticleSources` of `src/src/physics/sph.ts`

`Math.random()` draws are supplied as an explicit oracle `draw : ℕ → ℝ`
(one stream per source), consumed in source order. -/

/-- `const SIM_MAX_PARTICLES = 6000`. -/
def SIM_MAX_PARTICLES : Nat := 6000

/-- `ParticleSource` fields read by `HandleParticleSources`.  The class
constructor always assigns `direction` a `vec2` object, which is truthy in
JavaScript, so the branch test `source.direction && source.spawnLength > 0`
reduces to `spawnLength > 0`. -/
structure ParticleSource where
  pos : Vec2
  rate : ℝ
  lastSpawnTime : ℝ
  spawnRadius : ℝ
  direction : Vec2
  spawnLength : ℝ
  velocity : ℝ

/-- `new SPHParticle()` as built by the emitter: default mass is the global
`M`, `P = 0`, `rho = M * Wpoly6(0)` and zero forces from `reset()`; position
and velocity are then assigned directly. -/
noncomputable def newSPHParticle (pr : Params) (x y vx vy : ℝ) : SPHParticle :=
  { x := x, y := y, Vx := vx, Vy := vy, Fx := 0, Fy := 0,
    M := pr.M, P := 0, rho := pr.M * Wpoly6 0 }

/-- The sampled spawn position and velocity `(spawnX, spawnY, velocityX,
velocityY)` of one emission attempt: line/rectangle sampling when
`spawnLength > 0`, otherwise the point-source circle sampling. -/
noncomputable def sourceSample (src : ParticleSource) (draw : Nat → ℝ) :
    ℝ × ℝ × ℝ × ℝ :=
  if 0 < src.spawnLength then
    let lineOffset := (draw 0 - 1 / 2) * src.spawnLength
    let perpX := -src.direction.y
    let perpY := src.direction.x
    let directionOffset := (draw 1 - 1 / 2) * (1 / 10)
    let spawnX := src.pos.x + perpX * lineOffset + src.direction.x * directionOffset
    let spawnY := src.pos.y + perpY * lineOffset + src.direction.y * directionOffset
    let velocityMagnitude := if src.velocity = 0 then 1 else src.velocity
    let velocityX := src.direction.x * velocityMagnitude * (1 + (draw 2 - 1 / 2) * (3 / 10))
    let velocityY := src.direction.y * velocityMagnitude * (1 + (draw 3 - 1 / 2) * (3 / 10))
    (spawnX, spawnY, velocityX, velocityY)
  else
    let angle := draw 0 * (2 * Real.pi)
    let radius := draw 1 * src.spawnRadius
    let spawnX := src.pos.x + Real.cos angle * radius
    let spawnY := src.pos.y + Real.sin angle * radius
    (spawnX, spawnY, Real.cos angle * (1 / 2), Real.sin angle * (1 / 2))

/-- One source iteration of `HandleParticleSources(currentTime)`: the attempt is
gated by `timeSinceLastSpawn >= 1000/rate && particles.length <
SIM_MAX_PARTICLES`; the particle is pushed only when the sampled position is
inside the domain bounds, and `lastSpawnTime` is set to `currentTime` on every
attempt, accepted or not. -/
noncomputable def sourceStep (bd : Bounds) (pr : Params) (currentTime : ℝ)
    (draw : Nat → ℝ) (ps : List SPHParticle) (src : ParticleSource) :
    List SPHParticle × ParticleSource :=
  if currentTime - src.lastSpawnTime ≥ 1000 / src.rate ∧
      ps.length < SIM_MAX_PARTICLES then
    let smp := sourceSample src draw
    let ps' :=
      if bd.xmin ≤ smp.1 ∧ smp.1 ≤ bd.xmax ∧ bd.ymin ≤ smp.2.1 ∧ smp.2.1 ≤ bd.ymax then
        ps ++ [newSPHParticle pr smp.1 smp.2.1 smp.2.2.1 smp.2.2.2]
      else ps
    (ps', { src with lastSpawnTime := currentTime })
  else (ps, src)

/-- The `for (const source of sources)` loop, threading the shared particle
array; source `k` consumes the draw stream `u k`. -/
noncomputable def sourcesGo (bd : Bounds) (pr : Params) (currentTime : ℝ)
    (u : Nat → Nat → ℝ) :
    Nat → List SPHParticle → List ParticleSource →
      List SPHParticle × List ParticleSource
  | _, ps, [] => (ps, [])
  | k, ps, src :: rest =>
    let r1 := sourceStep bd pr currentTime (u k) ps src
    let r2 := sourcesGo bd pr currentTime u (k + 1) r1.1 rest
    (r2.1, r1.2 :: r2.2)

/-- `HandleParticleSources(currentTime)`. -/
noncomputable def HandleParticleSources (bd : Bounds) (pr : Params)
    (currentTime : ℝ) (u : Nat → Nat → ℝ) (ps : List SPHParticle)
    (srcs : List ParticleSource) : List SPHParticle × List ParticleSource :=
  sourcesGo bd pr currentTime u 0 ps srcs

/-! ### Particle sinks: `HandleParticleSinks` of `src/src/physics/sph.ts` and
`ParticleSink.shouldRemoveParticle` of the `ParticleSink` class. -/

/-- Side tags `'none' | 'top' | 'bottom' | 'left' | 'right'`. -/
inductive SideTag where
  | none | top | bottom | left | right
deriving DecidableEq

/-- `ParticleSink` fields read by the drain logic; `hasPlane` stands for the
truthiness of the `staticPlane` back-reference. -/
structure ParticleSink where
  pos : Vec2
  rate : ℝ
  lastVanishTime : ℝ
  sinkRange : ℝ
  sinkLength : ℝ
  sinkSide : SideTag
  hasPlane : Bool

/-- `ParticleSink.shouldRemoveParticle(particlePos)`: the line sink compares the
perpendicular distance with `sinkRange` and the along-line distance with
`sinkLength / 2`; the point sink compares the Euclidean distance with
`sinkRange`. -/
noncomputable def shouldRemoveParticle (snk : ParticleSink) (pp : Vec2) : Prop :=
  if snk.hasPlane = true ∧ snk.sinkSide ≠ SideTag.none ∧ 0 < snk.sinkLength then
    match snk.sinkSide with
    | .top | .bottom =>
      |pp.y - snk.pos.y| ≤ snk.sinkRange ∧ |pp.x - snk.pos.x| ≤ snk.sinkLength / 2
    | .left | .right =>
      |pp.x - snk.pos.x| ≤ snk.sinkRange ∧ |pp.y - snk.pos.y| ≤ snk.sinkLength / 2
    | .none => False
  else
    Real.sqrt ((pp.x - snk.pos.x) ^ 2 + (pp.y - snk.pos.y) ^ 2) ≤ snk.sinkRange

/-- The removal scan `for (let i = particles.length - 1; i >= 0; i--) { if
(eligible) { splice(i, 1); break; } }`: the highest-index (i.e. last) eligible
particle is removed; `none` when no particle is eligible.  The recursion tries
the tail (the higher indices) first, exactly as the downward scan does. -/
def drainGo {α : Type} (elig : α → Prop) [DecidablePred elig] :
    List α → Option (List α)
  | [] => Option.none
  | x :: xs =>
    match drainGo elig xs with
    | some xs' => some (x :: xs')
    | Option.none => if elig x then some xs else Option.none

open Classical in
/-- One sink iteration of `HandleParticleSinks(currentTime)`: gated by
`timeSinceLastRemoval >= 1000/rate`; at most one particle is removed, and
`lastVanishTime` is set to `currentTime` exactly when one is. -/
noncomputable def sinkStep (currentTime : ℝ) (ps : List SPHParticle)
    (snk : ParticleSink) : List SPHParticle × ParticleSink :=
  if currentTime - snk.lastVanishTime ≥ 1000 / snk.rate then
    match drainGo (fun p => shouldRemoveParticle snk ⟨p.x, p.y⟩) ps with
    | some ps' => (ps', { snk with lastVanishTime := currentTime })
    | Option.none => (ps, snk)
  else (ps, snk)

/-- The `for (const sink of sinks)` loop, threading the shared particle array. -/
noncomputable def sinksGo (currentTime : ℝ) :
    List SPHParticle → List ParticleSink → List SPHParticle × List ParticleSink
  | ps, [] => (ps, [])
  | ps, snk :: rest =>
    let r1 := sinkStep currentTime ps snk
    let r2 := sinksGo currentTime r1.1 rest
    (r2.1, r1.2 :: r2.2)

/-- `HandleParticleSinks(currentTime)`. -/
noncomputable def HandleParticleSinks (currentTime : ℝ) (ps : List SPHParticle)
    (snks : List ParticleSink) : List SPHParticle × List ParticleSink :=
  sinksGo currentTime ps snks

/-! ### Forced velocity, binding, and the `doPhysics` pipeline -/

/-- `CalcForcedVelocity()`: when armed and the stored cell reference is
non-null, every particle currently bound to that cell gets velocity
`(forceVx, forceVy)` and zero force. -/
def calcForcedVelocity (armed : Bool) (cellIdx : Option Nat) (fvx fvy : ℝ)
    (occ : Nat → List Nat) (arr : List SPHParticle) : List SPHParticle :=
  if armed then
    match cellIdx with
    | some idx =>
      (occ idx).foldl
        (fun a k => a.set k { a.getD k default with Vx := fvx, Vy := fvy, Fx := 0, Fy := 0 })
        arr
    | Option.none => arr
  else arr

/-- `particles.forEach(p => { grid.addParticle(p) })`, binding particle indices
in array order. -/
noncomputable def bindAll (g : PGrid ℝ) (ps : List SPHParticle) : PGrid ℝ :=
  (List.range ps.length).foldl
    (fun acc k => addParticle acc (ps.getD k default).x (ps.getD k default).y k) g

/-- The engine's module-level mutable state used by `Simulation.doPhysics`. -/
structure SimState where
  particles : List SPHParticle
  staticObjects : List StaticObject
  sources : List ParticleSource
  sinks : List ParticleSink
  grid : Option (PGrid ℝ)
  params : Params
  bounds : Bounds
  forceVelocityOn : Bool
  forceVx : ℝ
  forceVy : ℝ
  forceVelocityCell : Option Nat

/-- `const dt = 15` milliseconds; the integrator receives `dt * 0.001` seconds. -/
noncomputable def simDT : ℝ := 15 * (1 / 1000)

/-- `Simulation.doPhysics()`: grid guard, grid reset, source emission, sink
drain, empty-particle early return, bind, density pass, pressure update, force
pass, forced-velocity override, second grid reset, then per-particle obstacle
and boundary handling, integration, rebind and reset.  `currentTime` stands for
`Date.now()` and `u` for the `Math.random()` streams of the sources.  The
console statistics of the source are pure logging and are not modelled. -/
noncomputable def doPhysics (currentTime : ℝ) (u : Nat → Nat → ℝ)
    (s : SimState) : SimState :=
  match s.grid with
  | Option.none => s
  | some g =>
    let g0 := gridReset g
    let r1 := HandleParticleSources s.bounds s.params currentTime u s.particles s.sources
    let r2 := HandleParticleSinks currentTime r1.1 s.sinks
    let s2 := { s with particles := r2.1, sources := r1.2, sinks := r2.2, grid := some g0 }
    match r2.1 with
    | [] => s2
    | _ :: _ =>
      let ps := r2.1
      let gB := bindAll g0 ps
      let calls := pairwiseCalls gB.nx gB.ny gB.cells
      let arr1 := applyPairs (addDensity s.params) calls ps
      let arr2 := pressurePass s.params arr1
      let arr3 := applyPairs (addForces s.params) calls arr2
      let arr4 := calcForcedVelocity s.forceVelocityOn s.forceVelocityCell
        s.forceVx s.forceVy gB.cells arr3
      let g1 := gridReset gB
      let stepped := arr4.map (fun p =>
        particleReset (particleUpdate simDT (HandleBoundaryCollisions s.bounds s.params
          (HandleObstacleCollisions s.staticObjects p))))
      let gF := bindAll g1 stepped
      { s2 with
        particles := stepped
        grid := some gF
        forceVelocityOn := s.forceVelocityOn && s.forceVelocityCell.isNone }

/-- `Simulation.getParticlePressure(i)`: `0` for a stale index, otherwise
`p.P / p.rho` — the pressure divided by the local density. -/
noncomputable def getParticlePressure (ps : List SPHParticle) (i : Nat) : ℝ :=
  if ps.length ≤ i then 0
  else (ps.getD i default).P / (ps.getD i default).rho

/-! ### `Engine.setNumParticles` of the engine revision appended to
`src/physics/util.ts` (the implementation cited for the `set_num_particles`
API).  Its `Particle` constructor places the particle uniformly inside the
domain and draws the velocity components from `Math.random() - 0.5`. -/

/-- Particle state of that engine revision (no per-particle mass field). -/
structure ParticleU where
  x : ℝ
  y : ℝ
  Vx : ℝ
  Vy : ℝ
  Fx : ℝ
  Fy : ℝ
  P : ℝ
  rho : ℝ

instance : Inhabited ParticleU := ⟨⟨0, 0, 0, 0, 0, 0, 0, 0⟩⟩

/-- `new Particle()` of that revision: four `Math.random()` draws `u 0 .. u 3`
for position and velocity; `P = 0` and `reset()` zeroes the forces and sets
`rho = M * Wpoly6(0)`. -/
noncomputable def mkParticleU (bd : Bounds) (pr : Params) (u : Nat → ℝ) : ParticleU :=
  { x := u 0 * (bd.xmax - bd.xmin) + bd.xmin,
    y := u 1 * (bd.ymax - bd.ymin) + bd.ymin,
    Vx := u 2 - 1 / 2, Vy := u 3 - 1 / 2,
    Fx := 0, Fy := 0, P := 0, rho := pr.M * Wpoly6 0 }

/-- `Engine.setNumParticles(n)`: `particles = []; for (let i = 0; i < n; i++)
particles.push(new Particle());` — the previous array is discarded
unconditionally and `n` fresh randomly placed particles are created
(`u i` is the draw stream of the `i`-th constructor call). -/
noncomputable def setNumParticlesU (bd : Bounds) (pr : Params) (u : Nat → Nat → ℝ)
    (n : Nat) (ps : List ParticleU) : List ParticleU :=
  (List.range n).map (fun i => mkParticleU bd pr (u i))

/-! ## Theorems -/

/-- C10: for every index `i` with `0 ≤ i < particle count`,
`get_particle_pressure(i)` returns the particle's pressure divided by its local
density (`P / ρ`), and (whenever `ρ ≠ 1` and `P ≠ 0`) not the stored pressure
value `P` itself. -/
theorem getParticlePressure_div_rho (ps : List SPHParticle) (i : Nat)
    (hi : i < ps.length) :
    getParticlePressure ps i = (ps.getD i default).P / (ps.getD i default).rho ∧
    ((ps.getD i default).rho ≠ 1 → (ps.getD i default).P ≠ 0 →
      getParticlePressure ps i ≠ (ps.getD i default).P) := by
  have hlen : ¬ ps.length ≤ i := by omega
  constructor
  · unfold getParticlePressure
    rw [if_neg hlen]
  · intro hrho hP hEq
    unfold getParticlePressure at hEq
    rw [if_neg hlen] at hEq
    set P := (ps.getD i default).P with hPdef
    set rho := (ps.getD i default).rho with hrhodef
    by_cases hz : rho = 0
    · rw [hz, div_zero] at hEq
      exact hP hEq.symm
    · rw [div_eq_iff hz] at hEq
      have : P * (rho - 1) = 0 := by ring_nf; linarith [hEq]
      rcases mul_eq_zero.mp this with h | h
      · exact hP h
      · exact hrho (by linarith)

/-- Closed witness for `getParticlePressure_div_rho`: a particle with `P = 2`,
`ρ = 2` reports pressure `1`, not `2`. -/
theorem getParticlePressure_div_rho_witness :
    getParticlePressure [⟨0, 0, 0, 0, 0, 0, 1, 2, 2⟩] 0 = 1 ∧
    getParticlePressure [⟨0, 0, 0, 0, 0, 0, 1, 2, 2⟩] 0 ≠ 2 := by
  have h := getParticlePressure_div_rho [⟨0, 0, 0, 0, 0, 0, 1, 2, 2⟩] 0 (by simp)
  constructor
  · rw [h.1]
    norm_num [List.getD]
  · have h2 := h.2 (by norm_num [List.getD]) (by norm_num [List.getD])
    simpa [List.getD] using h2

/-- C4: for a pair `(p, q)` with squared distance `r² < H²`, `addDensity`
increments the densities of both `p` and `q` by the same amount
`M * Wpoly6(r²)`; and the pressure update that `doPhysics` runs after the
density pass sets every particle's pressure to `max(0, K * (ρ - ρ0))`. -/
theorem density_increment_and_pressure (pr : Params) (p q : SPHParticle)
    (ps : List SPHParticle) (i : Nat) (hr : dist2 p q < H2)
    (hi : i < ps.length) :
    (addDensity pr p q).1.rho = p.rho + pr.M * Wpoly6 (dist2 p q) ∧
    (addDensity pr p q).2.rho = q.rho + pr.M * Wpoly6 (dist2 p q) ∧
    ((pressurePass pr ps).getD i default).P =
      max (pr.K * ((ps.getD i default).rho - pr.RHO0)) 0 := by
  refine ⟨?_, ?_, ?_⟩
  · unfold addDensity
    rw [if_pos hr]
  · unfold addDensity
    rw [if_pos hr]
  · unfold pressurePass
    rw [List.getD_eq_getElem _ _ (by simpa using hi),
      List.getD_eq_getElem _ _ hi, List.getElem_map]

/-- Closed witness for `density_increment_and_pressure` at two coincident
default particles (`r² = 0 < H²`). -/
theorem density_increment_and_pressure_witness :
    (addDensity ⟨1, 150, 1/2, 3⟩ default default).1.rho =
      (default : SPHParticle).rho +
        (⟨1, 150, 1/2, 3⟩ : Params).M * Wpoly6 (dist2 default default) ∧
    (addDensity ⟨1, 150, 1/2, 3⟩ default default).2.rho =
      (default : SPHParticle).rho +
        (⟨1, 150, 1/2, 3⟩ : Params).M * Wpoly6 (dist2 default default) ∧
    ((pressurePass ⟨1, 150, 1/2, 3⟩ [default]).getD 0 default).P =
      max ((⟨1, 150, 1/2, 3⟩ : Params).K *
        ((([default] : List SPHParticle).getD 0 default).rho -
          (⟨1, 150, 1/2, 3⟩ : Params).RHO0)) 0 :=
  density_increment_and_pressure ⟨1, 150, 1/2, 3⟩ default default [default] 0
    (by norm_num [dist2, H2, H]) (by simp)

/-- C9 counterexample: the cited `Engine.setNumParticles` (revision appended to
`src/physics/util.ts`) is not a no-op when the particle count is already `n`:
with one particle at `x = 9` and a draw stream returning `1/4` on the domain
`[0,10]²`, `setNumParticles(1)` replaces it by a fresh particle at `x = 5/2`. -/
theorem setNumParticles_not_noop :
    ([(⟨9, 9, 0, 0, 0, 0, 0, 0⟩ : ParticleU)].length = 1) ∧
    setNumParticlesU ⟨0, 0, 10, 10⟩ ⟨1, 150, 1/2, 3⟩ (fun _ _ => 1/4) 1
        [⟨9, 9, 0, 0, 0, 0, 0, 0⟩] ≠ [⟨9, 9, 0, 0, 0, 0, 0, 0⟩] := by
  refine ⟨rfl, fun hEq => ?_⟩
  have hx := congrArg (fun l => (l.getD 0 default).x) hEq
  simp [setNumParticlesU, List.range_succ, mkParticleU] at hx
  norm_num at hx

/-- C9 (amended): `set_num_particles(n)` reallocates the particle sequence to
exactly `n` randomly placed fresh particles unconditionally — the count is `n`
afterwards (also when it already was `n`), but the previous particles are
discarded rather than kept. -/
theorem setNumParticles_fresh_allocation (bd : Bounds) (pr : Params)
    (u : Nat → Nat → ℝ) (n : Nat) (ps : List ParticleU) :
    (setNumParticlesU bd pr u n ps).length = n ∧
    ∀ i, i < n →
      (setNumParticlesU bd pr u n ps).getD i default = mkParticleU bd pr (u i) := by
  constructor
  · simp [setNumParticlesU]
  · intro i hi
    unfold setNumParticlesU
    rw [List.getD_eq_getElem _ _ (by simpa using hi), List.getElem_map,
      List.getElem_range]

/-! Helper lemmas for the boundary handler: each side statement reduces to its
force branch because `d ≤ 0 → d < H = 1` makes the `else if (d <= 0)` velocity
reflection unreachable. -/

open Classical in
lemma bStepL_eq (bd : Bounds) (pr : Params) (p0 p : SPHParticle) :
    bStepL bd pr p0 p =
      { p with Fx := p.Fx +
          if p0.x - bd.xmin < H then repulsion pr p0 (p0.x - bd.xmin) else 0 } := by
  unfold bStepL
  split_ifs with h1 h2
  · rfl
  · exfalso
    simp only [H] at h1
    linarith
  · simp

open Classical in
lemma bStepB_eq (bd : Bounds) (pr : Params) (p0 p : SPHParticle) :
    bStepB bd pr p0 p =
      { p with Fy := p.Fy +
          if p0.y - bd.ymin < H then repulsion pr p0 (p0.y - bd.ymin) else 0 } := by
  unfold bStepB
  split_ifs with h1 h2
  · rfl
  · exfalso
    simp only [H] at h1
    linarith
  · simp

open Classical in
lemma bStepT_eq (bd : Bounds) (pr : Params) (p0 p : SPHParticle) :
    bStepT bd pr p0 p =
      { p with Fy := p.Fy -
          if bd.ymax - p0.y < H then repulsion pr p0 (bd.ymax - p0.y) else 0 } := by
  unfold bStepT
  split_ifs with h1 h2
  · rfl
  · exfalso
    simp only [H] at h1
    linarith
  · simp

open Classical in
lemma bStepR_eq (bd : Bounds) (pr : Params) (p0 p : SPHParticle) :
    bStepR bd pr p0 p =
      { p with Fx := p.Fx -
          if bd.xmax - p0.x < H then repulsion pr p0 (bd.xmax - p0.x) else 0 } := by
  unfold bStepR
  split_ifs with h1 h2
  · rfl
  · exfalso
    simp only [H] at h1
    linarith
  · simp

open Classical in
/-- Full characterization of `HandleBoundaryCollisions`: the velocity (and the
position, pressure, density, mass) of the particle is never modified; each of
the four sides adds its repulsive force along the inward normal exactly when
its distance `d` satisfies `d < H` (which includes every `d ≤ 0`). -/
lemma HandleBoundaryCollisions_eq (bd : Bounds) (pr : Params) (p : SPHParticle) :
    HandleBoundaryCollisions bd pr p =
      { p with
        Fx := p.Fx +
          (if p.x - bd.xmin < H then repulsion pr p (p.x - bd.xmin) else 0) -
          (if bd.xmax - p.x < H then repulsion pr p (bd.xmax - p.x) else 0)
        Fy := p.Fy +
          (if p.y - bd.ymin < H then repulsion pr p (p.y - bd.ymin) else 0) -
          (if bd.ymax - p.y < H then repulsion pr p (bd.ymax - p.y) else 0) } := by
  unfold HandleBoundaryCollisions
  rw [bStepL_eq, bStepB_eq, bStepT_eq, bStepR_eq]

/-- C2 (amended): each of the four sides with distance `d` (positive inside)
adds the repulsive force of magnitude `|M * P/ρ * Wspiky_grad2(d) * d|` along
the inward normal whenever `d < H` — including every `d ≤ 0`, because
`d ≤ 0 → d < H` makes the `else if (d ≤ 0)` velocity-reflection branches
unreachable; velocity components are never negated. -/
theorem boundary_force_only (bd : Bounds) (pr : Params) (p : SPHParticle) :
    (HandleBoundaryCollisions bd pr p).Vx = p.Vx ∧
    (HandleBoundaryCollisions bd pr p).Vy = p.Vy ∧
    (HandleBoundaryCollisions bd pr p).x = p.x ∧
    (HandleBoundaryCollisions bd pr p).y = p.y ∧
    (HandleBoundaryCollisions bd pr p).Fx = p.Fx +
      (if p.x - bd.xmin < H then repulsion pr p (p.x - bd.xmin) else 0) -
      (if bd.xmax - p.x < H then repulsion pr p (bd.xmax - p.x) else 0) ∧
    (HandleBoundaryCollisions bd pr p).Fy = p.Fy +
      (if p.y - bd.ymin < H then repulsion pr p (p.y - bd.ymin) else 0) -
      (if bd.ymax - p.y < H then repulsion pr p (bd.ymax - p.y) else 0) := by
  rw [HandleBoundaryCollisions_eq]
  refine ⟨rfl, rfl, rfl, rfl, ?_, ?_⟩ <;> simp

/-- C2 counterexample: a particle with `l = p.x - xmin = -1 ≤ 0` does not get
its `Vx` reflected (the claim demands `Vx ← -Vx`); the handler leaves
`Vx = 1 ≠ -1` and takes the force branch instead. -/
theorem boundary_reflection_branch_dead :
    ((⟨-1, 5, 1, 0, 0, 0, 1, 0, 1⟩ : SPHParticle).x - (⟨0, 0, 10, 10⟩ : Bounds).xmin ≤ 0) ∧
    (HandleBoundaryCollisions ⟨0, 0, 10, 10⟩ ⟨1, 150, 1/2, 3⟩
        ⟨-1, 5, 1, 0, 0, 0, 1, 0, 1⟩).Vx = 1 ∧
    (1 : ℝ) ≠ -(⟨-1, 5, 1, 0, 0, 0, 1, 0, 1⟩ : SPHParticle).Vx := by
  refine ⟨by norm_num, ?_, by norm_num⟩
  rw [HandleBoundaryCollisions_eq]

/-- C5 counterexample: binding a 51st particle into the single cell of a `1×1`
grid (`cellCapacity = 50`) whose cell already holds 50 references is not
dropped — the cell ends up holding 51 references, so its contents did change
for that tick. -/
theorem cell_overflow_not_dropped :
    ((addParticle (⟨1, 1, 1, 1, 50, fun _ => List.replicate 50 9⟩ : PGrid ℚ)
        (1/2) (1/2) 50).cells 0).length = 51 ∧
    (addParticle (⟨1, 1, 1, 1, 50, fun _ => List.replicate 50 9⟩ : PGrid ℚ)
        (1/2) (1/2) 50).cells 0 ≠ List.replicate 50 9 := by
  have hidx : getCellIdx
      (⟨1, 1, 1, 1, 50, fun _ => List.replicate 50 9⟩ : PGrid ℚ) (1/2) (1/2) = 0 := by
    unfold getCellIdx
    push_cast
    norm_num
  constructor
  · simp only [addParticle, hidx]
    norm_num
  · simp only [addParticle, hidx]
    norm_num

/-- C5 (amended): `addParticle` performs no capacity check — whenever the flat
cell index is valid, the reference is appended and the count grows by one, for
any current occupancy, so a cell already holding `CELL_MAX_PARTICLES = 50`
references grows to 51.  (`cellCapacity` is only the initial array
allocation size.) -/
theorem addParticle_always_appends {R : Type} [LinearOrderedField R]
    [FloorRing R] (g : PGrid R) (x y : R) (pid : Nat)
    (hv : 0 ≤ getCellIdx g x y ∧ getCellIdx g x y < (g.nx : Int) * (g.ny : Int)) :
    (addParticle g x y pid).cells (getCellIdx g x y).toNat
      = g.cells (getCellIdx g x y).toNat ++ [pid] ∧
    ((addParticle g x y pid).cells (getCellIdx g x y).toNat).length
      = (g.cells (getCellIdx g x y).toNat).length + 1 := by
  unfold addParticle
  rw [if_pos hv]
  refine ⟨by simp, by simp⟩

/-- Closed witness for `addParticle_always_appends`: a cell already holding 50
references receives a 51st. -/
theorem addParticle_always_appends_witness :
    (addParticle (⟨1, 1, 1, 1, 50, fun _ => List.replicate 50 9⟩ : PGrid ℚ)
        (1/2) (1/2) 7).cells
      ((getCellIdx (⟨1, 1, 1, 1, 50, fun _ => List.replicate 50 9⟩ : PGrid ℚ)
        (1/2) (1/2)).toNat) = List.replicate 50 9 ++ [7] ∧
    ((addParticle (⟨1, 1, 1, 1, 50, fun _ => List.replicate 50 9⟩ : PGrid ℚ)
        (1/2) (1/2) 7).cells
      ((getCellIdx (⟨1, 1, 1, 1, 50, fun _ => List.replicate 50 9⟩ : PGrid ℚ)
        (1/2) (1/2)).toNat)).length = (List.replicate 50 9 ++ [7]).length := by
  have h := addParticle_always_appends
    (⟨1, 1, 1, 1, 50, fun _ => List.replicate 50 9⟩ : PGrid ℚ) (1/2) (1/2) 7
    (by unfold getCellIdx; push_cast; norm_num)
  exact ⟨h.1, by rw [h.1]⟩

/-- C6 counterexample: on a `2×2` grid with extent `w = h = 2`, a particle at
`(5/2, 1/2)` lies outside the extent on the x-axis, yet `addParticle` does bind
it — the flat index `⌊2·(5/2)/2⌋ + ⌊2·(1/2)/2⌋·2 = 2` is a valid cell (the
first cell of the second row), so the position aliases into a wrong cell
instead of being ignored. -/
theorem bind_out_of_extent_wraps :
    (⟨2, 2, 2, 2, 50, fun _ => []⟩ : PGrid ℚ).w < 5/2 ∧
    (addParticle (⟨2, 2, 2, 2, 50, fun _ => []⟩ : PGrid ℚ) (5/2) (1/2) 7).cells 2
      = [7] := by
  have hidx : getCellIdx
      (⟨2, 2, 2, 2, 50, fun _ => []⟩ : PGrid ℚ) (5/2) (1/2) = 2 := by
    unfold getCellIdx
    push_cast
    norm_num
  constructor
  · norm_num
  · simp only [addParticle, hidx]
    norm_num [Function.update]
    rfl

/-- C6 (amended): `bind` computes the covering cell `(⌊nx·x/w⌋, ⌊ny·y/h⌋)` and,
for positions inside the grid extent, pushes into exactly that cell; but an
out-of-extent position is silently ignored only when the flat index
`⌊nx·x/w⌋ + ⌊ny·y/h⌋·nx` falls outside `[0, nx·ny)` — otherwise the particle is
bound to the (aliased) cell at that flat index. -/
theorem bind_covering_cell {R : Type} [LinearOrderedField R] [FloorRing R]
    (g : PGrid R) (x y : R) (pid : Nat)
    (hnx : 0 < g.nx) (hny : 0 < g.ny) (hw : 0 < g.w) (hh : 0 < g.h)
    (hx0 : 0 ≤ x) (hxw : x < g.w) (hy0 : 0 ≤ y) (hyh : y < g.h) :
    (0 ≤ ⌊(g.nx : R) * x / g.w⌋ ∧ ⌊(g.nx : R) * x / g.w⌋ < (g.nx : Int)) ∧
    (0 ≤ ⌊(g.ny : R) * y / g.h⌋ ∧ ⌊(g.ny : R) * y / g.h⌋ < (g.ny : Int)) ∧
    (addParticle g x y pid).cells =
      Function.update g.cells (getCellIdx g x y).toNat
        (g.cells (getCellIdx g x y).toNat ++ [pid]) ∧
    (∀ x' y', ¬ (0 ≤ getCellIdx g x' y' ∧
        getCellIdx g x' y' < (g.nx : Int) * (g.ny : Int)) →
      addParticle g x' y' pid = g) := by
  have hxI : 0 ≤ ⌊(g.nx : R) * x / g.w⌋ := by
    apply Int.floor_nonneg.mpr
    positivity
  have hxS : ⌊(g.nx : R) * x / g.w⌋ < (g.nx : Int) := by
    apply Int.floor_lt.mpr
    push_cast
    rw [div_lt_iff hw]
    have : (g.nx : R) * x < (g.nx : R) * g.w := by
      apply mul_lt_mul_of_pos_left hxw
      exact_mod_cast hnx
    linarith
  have hyI : 0 ≤ ⌊(g.ny : R) * y / g.h⌋ := by
    apply Int.floor_nonneg.mpr
    positivity
  have hyS : ⌊(g.ny : R) * y / g.h⌋ < (g.ny : Int) := by
    apply Int.floor_lt.mpr
    push_cast
    rw [div_lt_iff hh]
    have : (g.ny : R) * y < (g.ny : R) * g.h := by
      apply mul_lt_mul_of_pos_left hyh
      exact_mod_cast hny
    linarith
  have hvalid : 0 ≤ getCellIdx g x y ∧
      getCellIdx g x y < (g.nx : Int) * (g.ny : Int) := by
    unfold getCellIdx
    constructor
    · have : (0 : Int) ≤ ⌊(g.ny : R) * y / g.h⌋ * (g.nx : Int) := by positivity
      omega
    · have h1 : ⌊(g.ny : R) * y / g.h⌋ * (g.nx : Int) ≤
          ((g.ny : Int) - 1) * (g.nx : Int) := by
        apply mul_le_mul_of_nonneg_right (by omega) (by omega)
      have h2 : ((g.ny : Int) - 1) * (g.nx : Int) = (g.nx : Int) * (g.ny : Int) - g.nx := by
        ring
      omega
  refine ⟨⟨hxI, hxS⟩, ⟨hyI, hyS⟩, ?_, ?_⟩
  · unfold addParticle
    rw [if_pos hvalid]
  · intro x' y' hbad
    unfold addParticle
    rw [if_neg hbad]

/-- Closed witness for `bind_covering_cell` on a concrete `2×2` rational grid:
the in-extent position `(1/2, 3/2)` goes to cell `(0, 1)`, flat index 2. -/
theorem bind_covering_cell_witness :
    (addParticle (⟨2, 2, 2, 2, 50, fun _ => []⟩ : PGrid ℚ) (1/2) (3/2) 4).cells =
      Function.update
        (⟨2, 2, 2, 2, 50, fun _ => []⟩ : PGrid ℚ).cells
        ((getCellIdx (⟨2, 2, 2, 2, 50, fun _ => []⟩ : PGrid ℚ) (1/2) (3/2)).toNat)
        ((⟨2, 2, 2, 2, 50, fun _ => []⟩ : PGrid ℚ).cells
          ((getCellIdx (⟨2, 2, 2, 2, 50, fun _ => []⟩ : PGrid ℚ) (1/2) (3/2)).toNat)
          ++ [4]) :=
  (bind_covering_cell (⟨2, 2, 2, 2, 50, fun _ => []⟩ : PGrid ℚ) (1/2) (3/2) 4
    (by norm_num) (by norm_num) (by norm_num) (by norm_num)
    (by norm_num) (by norm_num) (by norm_num) (by norm_num)).2.2.1

/-! Helper lemmas for the half-neighbor pair enumeration (claim about
`ParticleGrid.pairwise` and the constructor's neighbor precomputation). -/

lemma countPair_append (p q : Nat) (l1 l2 : List (Nat × Nat)) :
    countPair p q (l1 ++ l2) = countPair p q l1 + countPair p q l2 := by
  unfold countPair
  rw [List.count_append, List.count_append]
  omega

lemma count_map_pair (p q x : Nat) (xs : List Nat) :
    (xs.map (fun y => (x, y))).count (p, q) = if x = p then xs.count q else 0 := by
  induction xs with
  | nil => simp
  | cons y ys ih =>
    simp only [List.map_cons, List.count_cons, ih, beq_iff_eq, Prod.mk.injEq]
    by_cases hx : x = p
    · by_cases hy : y = q
      · simp [hx, hy]
      · simp [hx, hy]
    · simp [hx]

lemma count_flatMap_pair (p q x : Nat) (nbs : List (List Nat)) :
    (nbs.flatMap (fun nb => nb.map (fun y => (x, y)))).count (p, q) =
      if x = p then (nbs.flatMap id).count q else 0 := by
  induction nbs with
  | nil => simp
  | cons nb rest ih =>
    simp only [List.flatMap_cons, List.count_append, ih, count_map_pair, id]
    by_cases hx : x = p
    · simp [hx]
    · simp [hx]

lemma countPair_visitFrom (p q x : Nat) (hpq : p ≠ q) (rest : List Nat)
    (nbs : List (List Nat)) :
    countPair p q (visitFrom x rest nbs) =
      (if x = p then rest.count q + (nbs.flatMap id).count q else 0) +
      (if x = q then rest.count p + (nbs.flatMap id).count p else 0) := by
  unfold visitFrom countPair
  rw [List.count_append, List.count_append, count_map_pair, count_map_pair,
    count_flatMap_pair, count_flatMap_pair]
  by_cases hx : x = p
  · have hxq : x ≠ q := by omega
    simp [hx, hxq, hpq, Ne.symm hpq]
  · by_cases hx' : x = q
    · simp [hx, hx', hpq, Ne.symm hpq]
    · simp [hx, hx']

lemma count_nodup_mem {α : Type} [DecidableEq α] (a : α) (l : List α)
    (hnd : l.Nodup) :
    l.count a = if a ∈ l then 1 else 0 := by
  by_cases hm : a ∈ l
  · rw [if_pos hm]
    exact List.count_eq_one_of_mem hnd hm
  · rw [if_neg hm]
    exact List.count_eq_zero_of_not_mem hm

lemma countPair_cellCalls (p q : Nat) (hpq : p ≠ q) :
    ∀ (L : List Nat), L.Nodup → ∀ (nbs : List (List Nat)),
    countPair p q (cellCalls L nbs) =
      (if p ∈ L ∧ q ∈ L then 1 else 0) +
      (if p ∈ L then (nbs.flatMap id).count q else 0) +
      (if q ∈ L then (nbs.flatMap id).count p else 0) := by
  intro L
  induction L with
  | nil =>
    intro _ nbs
    simp [cellCalls, countPair]
  | cons x xs ih =>
    intro hnd nbs
    have hndx : xs.Nodup := hnd.of_cons
    have hxmem : x ∉ xs := by
      intro hmem
      exact (List.nodup_cons.mp hnd).1 hmem
    rw [show cellCalls (x :: xs) nbs = visitFrom x xs nbs ++ cellCalls xs nbs from rfl,
      countPair_append, countPair_visitFrom p q x hpq, ih hndx]
    by_cases hx : x = p
    · have hxq : x ≠ q := by omega
      have hpxs : p ∉ xs := by rw [← hx]; exact hxmem
      simp only [hx, hxq, List.mem_cons, if_pos, if_neg, true_or, eq_self_iff_true]
      rw [count_nodup_mem q xs hndx]
      have hqL : (q = p ∨ q ∈ xs) ↔ q ∈ xs := by
        constructor
        · intro hc
          rcases hc with hc | hc
          · exact absurd hc.symm hpq
          · exact hc
        · exact Or.inr
      by_cases hq : q ∈ xs
      · simp [hpxs, hq, hqL, hpq, Ne.symm hpq]
      · simp [hpxs, hq, hqL, hpq, Ne.symm hpq]
    · by_cases hx' : x = q
      · have hqxs : q ∉ xs := by rw [← hx']; exact hxmem
        simp only [hx', List.mem_cons]
        rw [count_nodup_mem p xs hndx]
        have hne : ¬ (q = p) := fun hc => hpq hc.symm
        have hpL : (p = q ∨ p ∈ xs) ↔ p ∈ xs := by
          constructor
          · intro hc
            rcases hc with hc | hc
            · exact absurd hc hpq
            · exact hc
          · exact Or.inr
        by_cases hp : p ∈ xs
        · simp [hqxs, hp, hpL, hne, hpq, Ne.symm hpq]
          omega
        · simp [hqxs, hp, hpL, hne, hpq, Ne.symm hpq]
      · have h1 : ¬ (p = x) := fun hc => hx hc.symm
        have h2 : ¬ (q = x) := fun hc => hx' hc.symm
        simp [hx, hx', List.mem_cons, h1, h2]

lemma mem_rangeIncl {a b x : Nat} : x ∈ rangeIncl a b ↔ a ≤ x ∧ x ≤ b := by
  unfold rangeIncl
  simp only [List.mem_map, List.mem_range]
  constructor
  · rintro ⟨k, hk, rfl⟩
    omega
  · rintro ⟨h1, h2⟩
    exact ⟨x - a, by omega, by omega⟩

lemma rangeIncl_nodup (a b : Nat) : (rangeIncl a b).Nodup := by
  unfold rangeIncl
  exact (List.nodup_range _).map (add_right_injective a)

lemma mem_neighborsTR {nx ny i j a b : Nat} :
    (a, b) ∈ neighborsTR nx ny i j ↔
      (i < nx - 1 ∧ a = i + 1 ∧ b = j) ∨
      (j < ny - 1 ∧ b = j + 1 ∧ i - 1 ≤ a ∧ a ≤ min (nx - 1) (i + 1)) := by
  unfold neighborsTR
  rw [List.mem_append]
  constructor
  · rintro (h | h)
    · split_ifs at h with h1
      · simp only [List.mem_singleton, Prod.mk.injEq] at h
        exact Or.inl ⟨h1, h.1, h.2⟩
      · exact absurd h (List.not_mem_nil _)
    · split_ifs at h with h2
      · simp only [List.mem_map, mem_rangeIncl, Prod.mk.injEq] at h
        obtain ⟨ii, hii, he1, he2⟩ := h
        exact Or.inr ⟨h2, he2.symm, by omega, by omega⟩
      · exact absurd h (List.not_mem_nil _)
  · rintro (⟨h1, rfl, rfl⟩ | ⟨h2, rfl, h3, h4⟩)
    · left
      rw [if_pos h1]
      simp
    · right
      rw [if_pos h2]
      simp only [List.mem_map, mem_rangeIncl, Prod.mk.injEq]
      exact ⟨a, ⟨h3, h4⟩, by simp⟩

lemma neighborsTR_nodup (nx ny i j : Nat) : (neighborsTR nx ny i j).Nodup := by
  unfold neighborsTR
  apply List.Nodup.append
  · split_ifs <;> simp
  · split_ifs with h
    · exact (rangeIncl_nodup _ _).map
        (fun u v huv => by simpa using congrArg Prod.fst huv)
    · simp
  · intro c hc1 hc2
    split_ifs at hc1 hc2 with h1 h2
    · simp only [List.mem_singleton] at hc1
      simp only [List.mem_map] at hc2
      obtain ⟨ii, _, hii⟩ := hc2
      rw [hc1] at hii
      have := congrArg Prod.snd hii
      simp at this
    · exact absurd hc2 (List.not_mem_nil _)
    · exact absurd hc1 (List.not_mem_nil _)
    · exact absurd hc1 (List.not_mem_nil _)

lemma neighborsTR_bounds {nx ny i j a b : Nat} (hnx : 0 < nx) (hj : j < ny)
    (h : (a, b) ∈ neighborsTR nx ny i j) : a < nx ∧ b < ny := by
  rw [mem_neighborsTR] at h
  rcases h with ⟨h1, rfl, rfl⟩ | ⟨h2, rfl, h3, h4⟩ <;> omega

lemma self_not_mem_neighborsTR (nx ny i j : Nat) :
    (i, j) ∉ neighborsTR nx ny i j := by
  rw [mem_neighborsTR]
  rintro (⟨_, h, _⟩ | ⟨_, h, _⟩) <;> omega

lemma flatIdx_inj {nx a b c d : Nat} (ha : a < nx) (hc : c < nx)
    (h : a + b * nx = c + d * nx) : a = c ∧ b = d := by
  have h1 : (a + b * nx) % nx = (c + d * nx) % nx := by rw [h]
  rw [Nat.add_mul_mod_self_right, Nat.add_mul_mod_self_right,
    Nat.mod_eq_of_lt ha, Nat.mod_eq_of_lt hc] at h1
  subst h1
  have h2 : b * nx = d * nx := by omega
  exact ⟨rfl, Nat.eq_of_mul_eq_mul_right (by omega) h2⟩

lemma count_flatMap_eq_sum (a : Nat) (l : List (Nat × Nat))
    (f : Nat × Nat → List Nat) :
    (l.flatMap f).count a = (l.map (fun c => (f c).count a)).sum := by
  induction l with
  | nil => simp
  | cons c cs ih => simp [List.flatMap_cons, List.count_append, ih]

lemma sum_map_ite_mem (t : Nat × Nat) (l : List (Nat × Nat)) (hnd : l.Nodup) :
    (l.map (fun c => if c = t then 1 else 0)).sum = if t ∈ l then 1 else 0 := by
  induction l with
  | nil => simp
  | cons c cs ih =>
    have hndc : cs.Nodup := hnd.of_cons
    have hcnot : c ∉ cs := (List.nodup_cons.mp hnd).1
    simp only [List.map_cons, List.sum_cons, ih hndc, List.mem_cons]
    by_cases hc : c = t
    · subst hc
      simp [hcnot]
    · have htc : ¬ (t = c) := fun hcon => hc hcon.symm
      by_cases ht : t ∈ cs <;> simp [hc, ht, htc]

lemma countPair_flatMap_range (p q : Nat) (n : Nat) (f : Nat → List (Nat × Nat)) :
    countPair p q ((List.range n).flatMap f) =
      ∑ k ∈ Finset.range n, countPair p q (f k) := by
  induction n with
  | zero => simp [countPair]
  | succ m ih =>
    rw [List.range_succ, List.flatMap_append, countPair_append, ih,
      Finset.sum_range_succ]
    simp [countPair]

lemma sum_sum_ite_point {ny nx : Nat} (jp ip : Nat) (hip : ip < nx)
    (hjp : jp < ny) (g : Nat → Nat → Nat) :
    (∑ j ∈ Finset.range ny, ∑ i ∈ Finset.range nx,
      if i = ip ∧ j = jp then g i j else 0) = g ip jp := by
  rw [Finset.sum_eq_single jp]
  · rw [Finset.sum_eq_single ip]
    · simp
    · intro b _ hb
      rw [if_neg (by tauto)]
    · intro hip'
      exact absurd (Finset.mem_range.mpr hip) hip'
  · intro b _ hb
    apply Finset.sum_eq_zero
    intro i _
    rw [if_neg (by tauto)]
  · intro hjp'
    exact absurd (Finset.mem_range.mpr hjp) hjp'

lemma flatMap_id_map {α β : Type} (f : α → List β) (l : List α) :
    (l.map f).flatMap id = l.flatMap f := by
  induction l with
  | nil => simp
  | cons c cs ih => simp [ih]

/-- C3: for every configuration of particles bound to grid cells (each
particle stored in exactly one existing cell, each cell's store duplicate-free),
`pairwise(f)` invokes `f` exactly once per unordered pair of distinct particles
lying in the same cell or in neighboring cells (and zero times otherwise); and
the precomputed half-neighbor list of every cell never contains that cell
itself. -/
theorem pairwise_each_pair_once (nx ny : Nat) (occ : Nat → List Nat)
    (p q ip jp iq jq : Nat) (hpq : p ≠ q)
    (hnd : ∀ d, (occ d).Nodup)
    (huni : ∀ d e r, r ∈ occ d → r ∈ occ e → d = e)
    (hip : ip < nx) (hjp : jp < ny) (hiq : iq < nx) (hjq : jq < ny)
    (hp : p ∈ occ (ip + jp * nx)) (hq : q ∈ occ (iq + jq * nx)) :
    countPair p q (pairwiseCalls nx ny occ) =
      (if adjCell (ip, jp) (iq, jq) then 1 else 0) ∧
    ∀ i j, (i, j) ∉ neighborsTR nx ny i j := by
  refine ⟨?_, fun i j => self_not_mem_neighborsTR nx ny i j⟩
  have hnx : 0 < nx := by omega
  have memP : ∀ i j, i < nx → j < ny → (p ∈ occ (i + j * nx) ↔ i = ip ∧ j = jp) := by
    intro i j hi hj
    constructor
    · intro hm
      exact flatIdx_inj hi hip (huni _ _ p hm hp)
    · rintro ⟨rfl, rfl⟩
      exact hp
  have memQ : ∀ i j, i < nx → j < ny → (q ∈ occ (i + j * nx) ↔ i = iq ∧ j = jq) := by
    intro i j hi hj
    constructor
    · intro hm
      exact flatIdx_inj hi hiq (huni _ _ q hm hq)
    · rintro ⟨rfl, rfl⟩
      exact hq
  have cntQ : ∀ a b, a < nx → b < ny →
      (occ (a + b * nx)).count q = if (a, b) = (iq, jq) then 1 else 0 := by
    intro a b ha hb
    by_cases he : (a, b) = (iq, jq)
    · rw [if_pos he]
      have ha' : a = iq := congrArg Prod.fst he
      have hb' : b = jq := congrArg Prod.snd he
      subst ha'
      subst hb'
      exact List.count_eq_one_of_mem (hnd _) hq
    · rw [if_neg he]
      apply List.count_eq_zero_of_not_mem
      intro hm
      have h2 := flatIdx_inj ha hiq (huni _ _ q hm hq)
      exact he (by rw [h2.1, h2.2])
  have cntP : ∀ a b, a < nx → b < ny →
      (occ (a + b * nx)).count p = if (a, b) = (ip, jp) then 1 else 0 := by
    intro a b ha hb
    by_cases he : (a, b) = (ip, jp)
    · rw [if_pos he]
      have ha' : a = ip := congrArg Prod.fst he
      have hb' : b = jp := congrArg Prod.snd he
      subst ha'
      subst hb'
      exact List.count_eq_one_of_mem (hnd _) hp
    · rw [if_neg he]
      apply List.count_eq_zero_of_not_mem
      intro hm
      have h2 := flatIdx_inj ha hip (huni _ _ p hm hp)
      exact he (by rw [h2.1, h2.2])
  have hflat : ∀ (r : Nat) (t : Nat × Nat),
      (∀ a b, a < nx → b < ny →
        (occ (a + b * nx)).count r = if (a, b) = t then 1 else 0) →
      ∀ i j, j < ny →
      ((((neighborsTR nx ny i j).map (fun c => occ (c.1 + c.2 * nx))).flatMap id).count r)
        = if t ∈ neighborsTR nx ny i j then 1 else 0 := by
    intro r t hcnt i j hj
    rw [flatMap_id_map, count_flatMap_eq_sum]
    have hcong : (neighborsTR nx ny i j).map (fun c => (occ (c.1 + c.2 * nx)).count r)
        = (neighborsTR nx ny i j).map (fun c => if c = t then 1 else 0) := by
      apply List.map_congr_left
      rintro ⟨a, b⟩ hc
      obtain ⟨hab, hbb⟩ := neighborsTR_bounds hnx hj hc
      exact hcnt a b hab hbb
    rw [hcong, sum_map_ite_mem t _ (neighborsTR_nodup nx ny i j)]
  have percell : ∀ i j, i < nx → j < ny →
      countPair p q (cellCalls (occ (i + j * nx))
        ((neighborsTR nx ny i j).map (fun c => occ (c.1 + c.2 * nx)))) =
      ((if i = ip ∧ j = jp then (if i = iq ∧ j = jq then 1 else 0) else 0) +
       (if i = ip ∧ j = jp then (if (iq, jq) ∈ neighborsTR nx ny i j then 1 else 0) else 0)) +
      (if i = iq ∧ j = jq then (if (ip, jp) ∈ neighborsTR nx ny i j then 1 else 0) else 0) := by
    intro i j hi hj
    rw [countPair_cellCalls p q hpq _ (hnd _),
      hflat q (iq, jq) cntQ i j hj, hflat p (ip, jp) cntP i j hj,
      if_congr (and_congr (memP i j hi hj) (memQ i j hi hj)) rfl rfl,
      if_congr (memP i j hi hj) rfl rfl, if_congr (memQ i j hi hj) rfl rfl]
    by_cases h1 : i = ip ∧ j = jp <;> by_cases h2 : i = iq ∧ j = jq <;>
      simp [h1, h2]
  unfold pairwiseCalls
  rw [countPair_flatMap_range]
  have hsum : (∑ j ∈ Finset.range ny, countPair p q ((List.range nx).flatMap
      (fun i => cellCalls (occ (i + j * nx))
        ((neighborsTR nx ny i j).map (fun c => occ (c.1 + c.2 * nx)))))) =
      ∑ j ∈ Finset.range ny, ∑ i ∈ Finset.range nx,
        (((if i = ip ∧ j = jp then (if i = iq ∧ j = jq then 1 else 0) else 0) +
          (if i = ip ∧ j = jp then (if (iq, jq) ∈ neighborsTR nx ny i j then 1 else 0) else 0)) +
         (if i = iq ∧ j = jq then (if (ip, jp) ∈ neighborsTR nx ny i j then 1 else 0) else 0)) := by
    apply Finset.sum_congr rfl
    intro j hj
    rw [countPair_flatMap_range]
    apply Finset.sum_congr rfl
    intro i hi
    exact percell i j (Finset.mem_range.mp hi) (Finset.mem_range.mp hj)
  rw [hsum]
  have split1 : (∑ j ∈ Finset.range ny, ∑ i ∈ Finset.range nx,
      (((if i = ip ∧ j = jp then (if i = iq ∧ j = jq then 1 else 0) else 0) +
        (if i = ip ∧ j = jp then (if (iq, jq) ∈ neighborsTR nx ny i j then 1 else 0) else 0)) +
       (if i = iq ∧ j = jq then (if (ip, jp) ∈ neighborsTR nx ny i j then 1 else 0) else 0))) =
      (∑ j ∈ Finset.range ny, ∑ i ∈ Finset.range nx,
        (if i = ip ∧ j = jp then (if i = iq ∧ j = jq then 1 else 0) else 0)) +
      (∑ j ∈ Finset.range ny, ∑ i ∈ Finset.range nx,
        (if i = ip ∧ j = jp then (if (iq, jq) ∈ neighborsTR nx ny i j then 1 else 0) else 0)) +
      (∑ j ∈ Finset.range ny, ∑ i ∈ Finset.range nx,
        (if i = iq ∧ j = jq then (if (ip, jp) ∈ neighborsTR nx ny i j then 1 else 0) else 0)) := by
    simp only [Finset.sum_add_distrib]
  have e1 : (∑ j ∈ Finset.range ny, ∑ i ∈ Finset.range nx,
      if i = ip ∧ j = jp then (if i = iq ∧ j = jq then 1 else 0) else 0) =
      (if ip = iq ∧ jp = jq then 1 else 0) :=
    sum_sum_ite_point jp ip hip hjp _
  have e2 : (∑ j ∈ Finset.range ny, ∑ i ∈ Finset.range nx,
      if i = ip ∧ j = jp then (if (iq, jq) ∈ neighborsTR nx ny i j then 1 else 0) else 0) =
      (if (iq, jq) ∈ neighborsTR nx ny ip jp then 1 else 0) :=
    sum_sum_ite_point jp ip hip hjp _
  have e3 : (∑ j ∈ Finset.range ny, ∑ i ∈ Finset.range nx,
      if i = iq ∧ j = jq then (if (ip, jp) ∈ neighborsTR nx ny i j then 1 else 0) else 0) =
      (if (ip, jp) ∈ neighborsTR nx ny iq jq then 1 else 0) :=
    sum_sum_ite_point jq iq hiq hjq _
  rw [split1, e1, e2, e3]
  simp only [mem_neighborsTR, adjCell]
  split_ifs <;> omega

/-- Closed witness for `pairwise_each_pair_once`: a `2×2` grid with particle 0
alone in cell `(0,0)` and particle 1 alone in the diagonal neighbor `(1,1)`;
the pair is visited exactly once. -/
theorem pairwise_each_pair_once_witness :
    countPair 0 1 (pairwiseCalls 2 2
      (fun d => if d = 0 then [0] else if d = 3 then [1] else [])) = 1 ∧
    (0, 0) ∉ neighborsTR 2 2 0 0 := by
  have h := pairwise_each_pair_once 2 2
    (fun d => if d = 0 then [0] else if d = 3 then [1] else [])
    0 1 0 0 1 1 (by decide)
    (by
      intro d
      dsimp only
      split_ifs <;> simp)
    (by
      intro d e r h1 h2
      dsimp only at h1 h2
      split_ifs at h1 h2 <;> simp_all)
    (by decide) (by decide) (by decide) (by decide)
    (by decide) (by decide)
  refine ⟨?_, h.2 0 0⟩
  have h1 := h.1
  rw [if_pos (by decide)] at h1
  exact h1

/-! Helper lemmas for the integrator and the `doPhysics` pipeline. -/

lemma clampLength_abs_le (v : Vec2) :
    |(clampLength v 0 10).x| ≤ 10 ∧ |(clampLength v 0 10).y| ≤ 10 := by
  simp only [clampLength]
  set L := Real.sqrt (v.x * v.x + v.y * v.y) with hL
  have hL0 : 0 ≤ L := Real.sqrt_nonneg _
  have hxle : |v.x| ≤ L := by
    rw [hL, show v.x * v.x + v.y * v.y = v.x ^ 2 + v.y ^ 2 by ring]
    calc |v.x| = Real.sqrt (v.x ^ 2) := (Real.sqrt_sq_eq_abs v.x).symm
    _ ≤ Real.sqrt (v.x ^ 2 + v.y ^ 2) := Real.sqrt_le_sqrt (by nlinarith)
  have hyle : |v.y| ≤ L := by
    rw [hL, show v.x * v.x + v.y * v.y = v.x ^ 2 + v.y ^ 2 by ring]
    calc |v.y| = Real.sqrt (v.y ^ 2) := (Real.sqrt_sq_eq_abs v.y).symm
    _ ≤ Real.sqrt (v.x ^ 2 + v.y ^ 2) := Real.sqrt_le_sqrt (by nlinarith)
  have hc0 : (0 : ℝ) ≤ max 0 (min 10 L) := le_max_left 0 _
  have hc10 : max 0 (min 10 L) ≤ 10 := max_le (by norm_num) (min_le_left 10 L)
  by_cases hz : L = 0
  · have hx0 : v.x = 0 := abs_eq_zero.mp (le_antisymm (hz ▸ hxle) (abs_nonneg v.x))
    have hy0 : v.y = 0 := abs_eq_zero.mp (le_antisymm (hz ▸ hyle) (abs_nonneg v.y))
    simp [hz, hx0, hy0]
  · have hLpos : 0 < L := lt_of_le_of_ne hL0 (Ne.symm hz)
    rw [if_neg hz]
    constructor
    · rw [abs_mul, abs_div, abs_of_pos hLpos, abs_of_nonneg hc0]
      calc |v.x| / L * max 0 (min 10 L) ≤ 1 * max 0 (min 10 L) := by
            apply mul_le_mul_of_nonneg_right _ hc0
            rw [div_le_one hLpos]
            exact hxle
      _ = max 0 (min 10 L) := one_mul _
      _ ≤ 10 := hc10
    · rw [abs_mul, abs_div, abs_of_pos hLpos, abs_of_nonneg hc0]
      calc |v.y| / L * max 0 (min 10 L) ≤ 1 * max 0 (min 10 L) := by
            apply mul_le_mul_of_nonneg_right _ hc0
            rw [div_le_one hLpos]
            exact hyle
      _ = max 0 (min 10 L) := one_mul _
      _ ≤ 10 := hc10

lemma clampLength_eq_self (v : Vec2)
    (hle : Real.sqrt (v.x * v.x + v.y * v.y) ≤ 10) : clampLength v 0 10 = v := by
  simp only [clampLength]
  set L := Real.sqrt (v.x * v.x + v.y * v.y) with hL
  have hL0 : 0 ≤ L := Real.sqrt_nonneg _
  have hmax : max 0 (min 10 L) = L := by
    rw [min_eq_right hle]
    exact max_eq_right hL0
  by_cases hz : L = 0
  · have hnn : 0 ≤ v.x * v.x + v.y * v.y := by
      nlinarith [mul_self_nonneg v.x, mul_self_nonneg v.y]
    have hsq : v.x * v.x + v.y * v.y = 0 :=
      (Real.sqrt_eq_zero hnn).mp (hL ▸ hz)
    have hx0 : v.x = 0 := by nlinarith [mul_self_nonneg v.x, mul_self_nonneg v.y]
    have hy0 : v.y = 0 := by nlinarith [mul_self_nonneg v.x, mul_self_nonneg v.y]
    have hgoal : (⟨v.x / (if L = 0 then 1 else L) * max 0 (min 10 L),
        v.y / (if L = 0 then 1 else L) * max 0 (min 10 L)⟩ : Vec2) =
        (⟨v.x, v.y⟩ : Vec2) := by
      rw [if_pos hz, hmax, hz]
      rw [hx0, hy0]
      norm_num
    exact hgoal
  · have hgoal : (⟨v.x / (if L = 0 then 1 else L) * max 0 (min 10 L),
        v.y / (if L = 0 then 1 else L) * max 0 (min 10 L)⟩ : Vec2) =
        (⟨v.x, v.y⟩ : Vec2) := by
      rw [if_neg hz, hmax, div_mul_cancel₀ v.x hz, div_mul_cancel₀ v.y hz]
    exact hgoal

lemma particleUpdate_pos (dt : ℝ) (p : SPHParticle) :
    (particleUpdate dt p).x = p.x +
      (clampLength ⟨p.Vx + p.Fx / p.rho * dt, p.Vy + p.Fy / p.rho * dt⟩ 0 10).x * dt ∧
    (particleUpdate dt p).y = p.y +
      (clampLength ⟨p.Vx + p.Fx / p.rho * dt, p.Vy + p.Fy / p.rho * dt⟩ 0 10).y * dt :=
  ⟨rfl, rfl⟩

lemma getD_map_proj {β : Type} (h : SPHParticle → β) :
    ∀ (l : List SPHParticle) (i : Nat),
      (l.map h).getD i (h default) = h (l.getD i default) := by
  intro l
  induction l with
  | nil => intro i; rfl
  | cons x xs ih =>
    intro i
    cases i with
    | zero => rfl
    | succ n => exact ih n

lemma map_set_getD {β : Type} (h : SPHParticle → β) :
    ∀ (l : List SPHParticle) (i : Nat),
      (l.map h).set i (h (l.getD i default)) = l.map h := by
  intro l
  induction l with
  | nil => intro i; rfl
  | cons x xs ih =>
    intro i
    cases i with
    | zero => rfl
    | succ n =>
      show h x :: (xs.map h).set n (h (xs.getD n default)) = h x :: xs.map h
      rw [ih n]

lemma applyPairs_map_proj {β : Type} (h : SPHParticle → β)
    (f : SPHParticle → SPHParticle → SPHParticle × SPHParticle)
    (hf : ∀ a b, h ((f a b).1) = h a ∧ h ((f a b).2) = h b) :
    ∀ (ps : List (Nat × Nat)) (arr : List SPHParticle),
      (applyPairs f ps arr).map h = arr.map h := by
  intro ps
  induction ps with
  | nil => intro arr; rfl
  | cons ij rest ih =>
    intro arr
    show (applyPairs f rest
      ((arr.set ij.1 (f (arr.getD ij.1 default) (arr.getD ij.2 default)).1).set ij.2
        (f (arr.getD ij.1 default) (arr.getD ij.2 default)).2)).map h = arr.map h
    rw [ih, List.map_set, List.map_set, (hf _ _).1, (hf _ _).2,
      map_set_getD h arr ij.1, map_set_getD h arr ij.2]

lemma foldl_set_map_proj {β : Type} (h : SPHParticle → β)
    (g : SPHParticle → SPHParticle) (hg : ∀ p, h (g p) = h p) :
    ∀ (ks : List Nat) (arr : List SPHParticle),
      (ks.foldl (fun a k => a.set k (g (a.getD k default))) arr).map h = arr.map h := by
  intro ks
  induction ks with
  | nil => intro arr; rfl
  | cons k rest ih =>
    intro arr
    show (rest.foldl _ (arr.set k (g (arr.getD k default)))).map h = arr.map h
    rw [ih, List.map_set, hg, map_set_getD h arr k]

lemma addDensity_proj (pr : Params) (a b : SPHParticle) :
    ((addDensity pr a b).1.x = a.x ∧ (addDensity pr a b).1.y = a.y) ∧
    ((addDensity pr a b).2.x = b.x ∧ (addDensity pr a b).2.y = b.y) := by
  simp only [addDensity]
  split_ifs <;> exact ⟨⟨rfl, rfl⟩, rfl, rfl⟩

lemma addForces_proj (pr : Params) (a b : SPHParticle) :
    ((addForces pr a b).1.x = a.x ∧ (addForces pr a b).1.y = a.y) ∧
    ((addForces pr a b).2.x = b.x ∧ (addForces pr a b).2.y = b.y) := by
  simp only [addForces]
  split_ifs <;> exact ⟨⟨rfl, rfl⟩, rfl, rfl⟩

lemma calcForcedVelocity_map_x (armed : Bool) (cellIdx : Option Nat)
    (fvx fvy : ℝ) (occ : Nat → List Nat) (arr : List SPHParticle) :
    (calcForcedVelocity armed cellIdx fvx fvy occ arr).map (fun p => p.x) =
      arr.map (fun p => p.x) ∧
    (calcForcedVelocity armed cellIdx fvx fvy occ arr).map (fun p => p.y) =
      arr.map (fun p => p.y) := by
  unfold calcForcedVelocity
  split_ifs with h
  · cases cellIdx with
    | none => exact ⟨rfl, rfl⟩
    | some idx =>
      constructor
      · exact foldl_set_map_proj (fun p => p.x)
          (fun p => { p with Vx := fvx, Vy := fvy, Fx := 0, Fy := 0 })
          (fun p => rfl) (occ idx) arr
      · exact foldl_set_map_proj (fun p => p.y)
          (fun p => { p with Vx := fvx, Vy := fvy, Fx := 0, Fy := 0 })
          (fun p => rfl) (occ idx) arr
  · exact ⟨rfl, rfl⟩

lemma pressurePass_map_x (pr : Params) (l : List SPHParticle) :
    (pressurePass pr l).map (fun p => p.x) = l.map (fun p => p.x) ∧
    (pressurePass pr l).map (fun p => p.y) = l.map (fun p => p.y) := by
  unfold pressurePass
  rw [List.map_map, List.map_map]
  exact ⟨rfl, rfl⟩

lemma integrate_step_disp (bd : Bounds) (pr : Params) (p : SPHParticle) :
    |(particleReset (particleUpdate simDT (HandleBoundaryCollisions bd pr
        (HandleObstacleCollisions [] p)))).x - p.x| ≤ 10 * simDT ∧
    |(particleReset (particleUpdate simDT (HandleBoundaryCollisions bd pr
        (HandleObstacleCollisions [] p)))).y - p.y| ≤ 10 * simDT := by
  have hobsid : HandleObstacleCollisions [] p = p := rfl
  rw [hobsid]
  have hdt : (0 : ℝ) ≤ simDT := by norm_num [simDT]
  set q := HandleBoundaryCollisions bd pr p with hq
  have hqx : q.x = p.x := by rw [hq, HandleBoundaryCollisions_eq]
  have hqy : q.y = p.y := by rw [hq, HandleBoundaryCollisions_eq]
  have hresx : (particleReset (particleUpdate simDT q)).x = (particleUpdate simDT q).x := rfl
  have hresy : (particleReset (particleUpdate simDT q)).y = (particleUpdate simDT q).y := rfl
  set v := clampLength ⟨q.Vx + q.Fx / q.rho * simDT, q.Vy + q.Fy / q.rho * simDT⟩ 0 10
    with hv
  have hvb := clampLength_abs_le ⟨q.Vx + q.Fx / q.rho * simDT, q.Vy + q.Fy / q.rho * simDT⟩
  constructor
  · rw [hresx, (particleUpdate_pos simDT q).1, hqx,
      show p.x + v.x * simDT - p.x = v.x * simDT by ring, abs_mul, abs_of_nonneg hdt]
    exact mul_le_mul_of_nonneg_right hvb.1 hdt
  · rw [hresy, (particleUpdate_pos simDT q).2, hqy,
      show p.y + v.y * simDT - p.y = v.y * simDT by ring, abs_mul, abs_of_nonneg hdt]
    exact mul_le_mul_of_nonneg_right hvb.2 hdt

/-- C1 (amended): `do_physics` never clamps positions.  With no sources, sinks
or obstacles, each particle's position changes by at most `V_MAX * dt =
10 * 0.015 = 0.15` per coordinate in one tick (the integrator adds
`velocity * dt` with the velocity clamped to magnitude 10, and boundary
handling only adds forces); in particular a particle more than `0.15` beyond
`xmax` is still beyond `xmax` after `do_physics`, so the claimed invariant
`xmin ≤ p.x ≤ xmax ∧ ymin ≤ p.y ≤ ymax` does not hold after every call. -/
theorem doPhysics_no_position_clamp (currentTime : ℝ) (u : Nat → Nat → ℝ)
    (s : SimState) (g : PGrid ℝ)
    (hg : s.grid = some g) (hsrc : s.sources = []) (hsnk : s.sinks = [])
    (hobs : s.staticObjects = []) (i : Nat) (hi : i < s.particles.length) :
    |((doPhysics currentTime u s).particles.getD i default).x -
      (s.particles.getD i default).x| ≤ 10 * simDT ∧
    |((doPhysics currentTime u s).particles.getD i default).y -
      (s.particles.getD i default).y| ≤ 10 * simDT ∧
    (s.bounds.xmax + 10 * simDT < (s.particles.getD i default).x →
      s.bounds.xmax < ((doPhysics currentTime u s).particles.getD i default).x) := by
  obtain ⟨ps, objs, srcs, snks, gr, pr, bd, fvo, fvx, fvy, fvc⟩ := s
  dsimp only at hg hsrc hsnk hobs hi ⊢
  subst hg hsrc hsnk hobs
  unfold doPhysics
  dsimp only [HandleParticleSources, sourcesGo, HandleParticleSinks, sinksGo]
  cases ps with
  | nil => exact absurd hi (by simp)
  | cons p0 ptl =>
    dsimp only
    set arrIn : List SPHParticle := p0 :: ptl with harr
    set calls := pairwiseCalls (bindAll (gridReset g) arrIn).nx
      (bindAll (gridReset g) arrIn).ny (bindAll (gridReset g) arrIn).cells with hc
    set arr1 := applyPairs (addDensity pr) calls arrIn with h1
    set arr2 := pressurePass pr arr1 with h2
    set arr3 := applyPairs (addForces pr) calls arr2 with h3
    set arr4 := calcForcedVelocity fvo fvc fvx fvy
      (bindAll (gridReset g) arrIn).cells arr3 with h4
    have hx4 : arr4.map (fun p => p.x) = arrIn.map (fun p => p.x) := by
      rw [h4, (calcForcedVelocity_map_x _ _ _ _ _ _).1, h3,
        applyPairs_map_proj (fun p => p.x) _
          (fun a b => ⟨(addForces_proj pr a b).1.1, (addForces_proj pr a b).2.1⟩),
        h2, (pressurePass_map_x pr arr1).1, h1,
        applyPairs_map_proj (fun p => p.x) _
          (fun a b => ⟨(addDensity_proj pr a b).1.1, (addDensity_proj pr a b).2.1⟩)]
    have hy4 : arr4.map (fun p => p.y) = arrIn.map (fun p => p.y) := by
      rw [h4, (calcForcedVelocity_map_x _ _ _ _ _ _).2, h3,
        applyPairs_map_proj (fun p => p.y) _
          (fun a b => ⟨(addForces_proj pr a b).1.2, (addForces_proj pr a b).2.2⟩),
        h2, (pressurePass_map_x pr arr1).2, h1,
        applyPairs_map_proj (fun p => p.y) _
          (fun a b => ⟨(addDensity_proj pr a b).1.2, (addDensity_proj pr a b).2.2⟩)]
    have hlen4 : arr4.length = arrIn.length := by
      have h5 := congrArg List.length hx4
      simpa using h5
    have hi4 : i < arr4.length := by
      rw [hlen4]
      exact hi
    have hgetD : ∀ (stp : SPHParticle → SPHParticle),
        ((arr4.map stp).getD i default) = stp (arr4.getD i default) := by
      intro stp
      rw [List.getD_eq_getElem _ _ (by simpa using hi4), List.getElem_map,
        List.getD_eq_getElem _ _ hi4]
    rw [hgetD]
    have hx4i : (arr4.getD i default).x = (arrIn.getD i default).x := by
      have e1 := getD_map_proj (fun p => p.x) arr4 i
      have e2 := getD_map_proj (fun p => p.x) arrIn i
      rw [← e1, ← e2, hx4]
    have hy4i : (arr4.getD i default).y = (arrIn.getD i default).y := by
      have e1 := getD_map_proj (fun p => p.y) arr4 i
      have e2 := getD_map_proj (fun p => p.y) arrIn i
      rw [← e1, ← e2, hy4]
    have hdisp := integrate_step_disp bd pr (arr4.getD i default)
    refine ⟨?_, ?_, ?_⟩
    · rw [← hx4i]
      exact hdisp.1
    · rw [← hy4i]
      exact hdisp.2
    · intro hfar
      rw [← hx4i] at hfar
      have h6 := abs_le.mp hdisp.1
      have h7 := h6.1
      set w := (particleReset (particleUpdate simDT (HandleBoundaryCollisions bd pr
        (HandleObstacleCollisions [] (arr4.getD i default))))).x
      linarith

/-- Witness for `doPhysics_no_position_clamp` at a concrete one-particle
engine state on a `1×1` grid over `[0,10]²`. -/
theorem doPhysics_no_position_clamp_witness :
    |((doPhysics 0 (fun _ _ => 0)
        ⟨[⟨1, 1, 0, 0, 0, 0, 1, 0, 1⟩], [], [], [],
          some ⟨1, 1, 10, 10, 50, fun _ => []⟩, ⟨1, 1, 1, 1⟩,
          ⟨0, 0, 10, 10⟩, false, 0, 0, Option.none⟩).particles.getD 0 default).x -
      (([⟨1, 1, 0, 0, 0, 0, 1, 0, 1⟩] : List SPHParticle).getD 0 default).x|
      ≤ 10 * simDT :=
  (doPhysics_no_position_clamp 0 (fun _ _ => 0)
    ⟨[⟨1, 1, 0, 0, 0, 0, 1, 0, 1⟩], [], [], [],
      some ⟨1, 1, 10, 10, 50, fun _ => []⟩, ⟨1, 1, 1, 1⟩,
      ⟨0, 0, 10, 10⟩, false, 0, 0, Option.none⟩
    ⟨1, 1, 10, 10, 50, fun _ => []⟩ rfl rfl rfl rfl 0 (by simp)).1

lemma Wpoly6_zero : Wpoly6 0 = 315 / (64 * Real.pi) := by
  simp [Wpoly6, Wpoly6_coeff, H2, H, H9]

lemma pressure_zero_of_small_mass :
    max ((150 : ℝ) * (1/10 * Wpoly6 0 - 1/2)) 0 = 0 := by
  apply max_eq_right
  have hle : (1/10 : ℝ) * Wpoly6 0 ≤ 1/2 := by
    rw [Wpoly6_zero]
    have h0 : (0 : ℝ) < 640 * Real.pi := by positivity
    rw [show (1/10 : ℝ) * (315 / (64 * Real.pi)) = 315 / (640 * Real.pi) by
      field_simp
      ring]
    rw [div_le_iff h0]
    nlinarith [Real.pi_gt_three]
  linarith

/-- C1 counterexample: on an initialized engine (a `1×1` grid over the domain
`[0,10]²`, fluid mass `M = 1/10`) holding one particle at `x = 1999/200 =
9.995` with velocity `(1, 0)`, `doPhysics` moves the particle to
`x = 9.995 + 1 * 0.015 = 10.01 > xmax`: the position is not clamped back into
the domain, refuting the claimed invariant. -/
theorem doPhysics_leaves_particle_outside :
    ¬ (∀ p ∈ (doPhysics 0 (fun _ _ => 0)
        ⟨[⟨1999/200, 5, 1, 0, 0, 0, 1/10, 0, 1/10 * Wpoly6 0⟩], [], [], [],
          some ⟨1, 1, 10, 10, 50, fun _ => []⟩, ⟨1/10, 150, 1/2, 3⟩,
          ⟨0, 0, 10, 10⟩, false, 0, 0, Option.none⟩).particles,
        (0 : ℝ) ≤ p.x ∧ p.x ≤ 10 ∧ (0 : ℝ) ≤ p.y ∧ p.y ≤ 10) := by
  intro hall
  have hidx : getCellIdx (⟨1, 1, 10, 10, 50, fun _ => []⟩ : PGrid ℝ)
      (1999/200 : ℝ) 5 = 0 := by
    unfold getCellIdx
    push_cast
    norm_num
  have hbind : bindAll (gridReset ⟨1, 1, 10, 10, 50, fun _ => []⟩)
      [⟨1999/200, 5, 1, 0, 0, 0, 1/10, 0, 1/10 * Wpoly6 0⟩] =
      ⟨1, 1, 10, 10, 50, Function.update (fun _ => []) 0 [0]⟩ := by
    unfold bindAll
    simp only [List.length_cons, List.length_nil, List.range_succ, List.range_zero,
      List.nil_append, List.foldl_cons, List.foldl_nil, List.getD_cons_zero]
    simp only [addParticle, gridReset, hidx]
    norm_num
    try rfl
  have hcalls : pairwiseCalls 1 1 (Function.update (fun _ => ([] : List Nat)) 0 [0])
      = [] := by decide
  have hpp : pressurePass ⟨1/10, 150, 1/2, 3⟩
      [⟨1999/200, 5, 1, 0, 0, 0, 1/10, 0, 1/10 * Wpoly6 0⟩] =
      [⟨1999/200, 5, 1, 0, 0, 0, 1/10, 0, 1/10 * Wpoly6 0⟩] := by
    unfold pressurePass
    simp only [List.map_cons, List.map_nil, List.cons.injEq, and_true]
    have hmax := pressure_zero_of_small_mass
    ext <;> first | rfl | exact hmax
  have hrep : ∀ d : ℝ, repulsion ⟨1/10, 150, 1/2, 3⟩
      ⟨1999/200, 5, 1, 0, 0, 0, 1/10, 0, 1/10 * Wpoly6 0⟩ d = 0 := by
    intro d
    unfold repulsion
    norm_num
  have hHBC : HandleBoundaryCollisions ⟨0, 0, 10, 10⟩ ⟨1/10, 150, 1/2, 3⟩
      ⟨1999/200, 5, 1, 0, 0, 0, 1/10, 0, 1/10 * Wpoly6 0⟩ =
      ⟨1999/200, 5, 1, 0, 0, 0, 1/10, 0, 1/10 * Wpoly6 0⟩ := by
    rw [HandleBoundaryCollisions_eq]
    simp only [hrep, ite_self]
    ext <;> norm_num
  have hclamp : clampLength ⟨1 + 0 / (1/10 * Wpoly6 0) * simDT,
      0 + 0 / (1/10 * Wpoly6 0) * simDT⟩ 0 10 = ⟨1, 0⟩ := by
    norm_num
    exact clampLength_eq_self ⟨1, 0⟩ (by norm_num)
  have hxstep : (particleReset (particleUpdate simDT (HandleBoundaryCollisions
      ⟨0, 0, 10, 10⟩ ⟨1/10, 150, 1/2, 3⟩ (HandleObstacleCollisions []
        ⟨1999/200, 5, 1, 0, 0, 0, 1/10, 0, 1/10 * Wpoly6 0⟩)))).x
      = 1999/200 + 1 * simDT := by
    rw [show HandleObstacleCollisions []
        (⟨1999/200, 5, 1, 0, 0, 0, 1/10, 0, 1/10 * Wpoly6 0⟩ : SPHParticle) =
        ⟨1999/200, 5, 1, 0, 0, 0, 1/10, 0, 1/10 * Wpoly6 0⟩ from rfl, hHBC]
    rw [show (particleReset (particleUpdate simDT
        (⟨1999/200, 5, 1, 0, 0, 0, 1/10, 0, 1/10 * Wpoly6 0⟩ : SPHParticle))).x =
        (particleUpdate simDT
          (⟨1999/200, 5, 1, 0, 0, 0, 1/10, 0, 1/10 * Wpoly6 0⟩ : SPHParticle)).x
      from rfl]
    rw [(particleUpdate_pos simDT _).1]
    dsimp only
    rw [hclamp]
  unfold doPhysics at hall
  dsimp only [HandleParticleSources, sourcesGo, HandleParticleSinks, sinksGo] at hall
  rw [hbind] at hall
  dsimp only at hall
  rw [hcalls] at hall
  dsimp only [applyPairs] at hall
  rw [hpp] at hall
  dsimp only [applyPairs, calcForcedVelocity, List.map_cons, List.map_nil,
    Bool.false_eq_true, if_false] at hall
  have hmem := hall _ (List.mem_cons_self _ _)
  rw [hxstep] at hmem
  have hx10 : (1999/200 : ℝ) + 1 * simDT ≤ 10 := hmem.2.1
  rw [show simDT = 15 * (1/1000) from rfl] at hx10
  norm_num at hx10

/-! Helper lemmas for the sink drain scan. -/

lemma drainGo_none_iff {α : Type} (elig : α → Prop) [DecidablePred elig] :
    ∀ l : List α, drainGo elig l = Option.none ↔ ∀ x ∈ l, ¬ elig x := by
  intro l
  induction l with
  | nil => simp [drainGo]
  | cons x xs ih =>
    simp only [drainGo, List.mem_cons]
    cases h : drainGo elig xs with
    | none =>
      have hxs : ∀ z ∈ xs, ¬ elig z := ih.mp h
      split_ifs with he
      · constructor
        · intro hsome
          exact absurd hsome (by simp)
        · intro hall
          exact absurd he (hall x (Or.inl rfl))
      · constructor
        · intro _ z hz
          rcases hz with rfl | hz
          · exact he
          · exact hxs z hz
        · intro _
          rfl
    | some xs' =>
      constructor
      · intro hsome
        exact absurd hsome (by simp)
      · intro hall
        have hnone : drainGo elig xs = Option.none :=
          ih.mpr (fun z hz => hall z (Or.inr hz))
        rw [h] at hnone
        exact absurd hnone (by simp)

lemma drainGo_some_length {α : Type} (elig : α → Prop) [DecidablePred elig] :
    ∀ (l l' : List α), drainGo elig l = some l' → l'.length + 1 = l.length := by
  intro l
  induction l with
  | nil =>
    intro l' hcontra
    simp [drainGo] at hcontra
  | cons x xs ih =>
    intro l' h
    simp only [drainGo] at h
    cases hx : drainGo elig xs with
    | none =>
      rw [hx] at h
      split_ifs at h with he
      cases h
      simp
    | some xs' =>
      rw [hx] at h
      cases h
      have hlen := ih xs' hx
      simp only [List.length_cons]
      omega

/-- C7: when a sink's removal interval has elapsed, at most one eligible
particle is removed by that sink in a tick; if an eligible particle exists,
exactly one is removed and `lastVanishTime` is advanced to `currentTime`; if
none is eligible, the particles and the sink (in particular its
`lastVanishTime`) are unchanged. -/
theorem sink_drain_at_most_one (currentTime : ℝ) (ps : List SPHParticle)
    (snk : ParticleSink)
    (hgate : currentTime - snk.lastVanishTime ≥ 1000 / snk.rate) :
    ps.length ≤ (sinkStep currentTime ps snk).1.length + 1 ∧
    ((∃ p ∈ ps, shouldRemoveParticle snk ⟨p.x, p.y⟩) →
      (sinkStep currentTime ps snk).1.length + 1 = ps.length ∧
      (sinkStep currentTime ps snk).2.lastVanishTime = currentTime) ∧
    ((∀ p ∈ ps, ¬ shouldRemoveParticle snk ⟨p.x, p.y⟩) →
      sinkStep currentTime ps snk = (ps, snk)) := by
  classical
  unfold sinkStep
  rw [if_pos hgate]
  cases hd : drainGo (fun p => shouldRemoveParticle snk ⟨p.x, p.y⟩) ps with
  | none =>
    refine ⟨by simp, ?_, ?_⟩
    · intro ⟨p, hp, he⟩
      exact absurd he ((drainGo_none_iff _ ps).mp hd p hp)
    · intro _
      simp
  | some ps' =>
    have hlen := drainGo_some_length _ ps ps' hd
    refine ⟨by simp; omega, ?_, ?_⟩
    · intro _
      exact ⟨by simpa using hlen, rfl⟩
    · intro hall
      exact absurd hd (by rw [(drainGo_none_iff _ ps).mpr hall]; simp)

/-- Closed witness for `sink_drain_at_most_one`: a point sink of range 1 at the
origin with rate 1, last drained at time 0, queried at time 2000 with one
particle sitting at the origin: the particle is removed and the timestamp
becomes 2000. -/
theorem sink_drain_at_most_one_witness :
    (sinkStep 2000 [⟨0, 0, 0, 0, 0, 0, 1, 0, 1⟩]
        ⟨⟨0, 0⟩, 1, 0, 1, 0, SideTag.none, false⟩).1.length + 1 = 1 ∧
    (sinkStep 2000 [⟨0, 0, 0, 0, 0, 0, 1, 0, 1⟩]
        ⟨⟨0, 0⟩, 1, 0, 1, 0, SideTag.none, false⟩).2.lastVanishTime = 2000 := by
  have h := sink_drain_at_most_one 2000 [⟨0, 0, 0, 0, 0, 0, 1, 0, 1⟩]
    ⟨⟨0, 0⟩, 1, 0, 1, 0, SideTag.none, false⟩ (by norm_num)
  have he : shouldRemoveParticle ⟨⟨0, 0⟩, 1, 0, 1, 0, SideTag.none, false⟩
      ⟨(⟨0, 0, 0, 0, 0, 0, 1, 0, 1⟩ : SPHParticle).x,
       (⟨0, 0, 0, 0, 0, 0, 1, 0, 1⟩ : SPHParticle).y⟩ := by
    unfold shouldRemoveParticle
    norm_num
  have h2 := h.2.1 ⟨⟨0, 0, 0, 0, 0, 0, 1, 0, 1⟩, by simp, he⟩
  exact ⟨by simpa using h2.1, h2.2⟩

/-- C8: a source attempts emission only when
`currentTime - lastSpawnTime ≥ 1000/rate` and the particle count is below
`SIM_MAX_PARTICLES = 6000`; on an attempt the new particle is appended exactly
when the sampled position lies inside the domain bounds, and `lastSpawnTime` is
advanced to `currentTime` regardless of acceptance. -/
theorem source_emit_gate (bd : Bounds) (pr : Params) (currentTime : ℝ)
    (draw : Nat → ℝ) (ps : List SPHParticle) (src : ParticleSource) :
    (¬ (currentTime - src.lastSpawnTime ≥ 1000 / src.rate ∧
        ps.length < SIM_MAX_PARTICLES) →
      sourceStep bd pr currentTime draw ps src = (ps, src)) ∧
    ((currentTime - src.lastSpawnTime ≥ 1000 / src.rate ∧
        ps.length < SIM_MAX_PARTICLES) →
      (sourceStep bd pr currentTime draw ps src).2 =
        { src with lastSpawnTime := currentTime } ∧
      ((bd.xmin ≤ (sourceSample src draw).1 ∧ (sourceSample src draw).1 ≤ bd.xmax ∧
          bd.ymin ≤ (sourceSample src draw).2.1 ∧ (sourceSample src draw).2.1 ≤ bd.ymax) →
        (sourceStep bd pr currentTime draw ps src).1 =
          ps ++ [newSPHParticle pr (sourceSample src draw).1 (sourceSample src draw).2.1
            (sourceSample src draw).2.2.1 (sourceSample src draw).2.2.2]) ∧
      (¬ (bd.xmin ≤ (sourceSample src draw).1 ∧ (sourceSample src draw).1 ≤ bd.xmax ∧
          bd.ymin ≤ (sourceSample src draw).2.1 ∧ (sourceSample src draw).2.1 ≤ bd.ymax) →
        (sourceStep bd pr currentTime draw ps src).1 = ps)) := by
  constructor
  · intro hng
    unfold sourceStep
    rw [if_neg hng]
  · intro hg
    unfold sourceStep
    rw [if_pos hg]
    refine ⟨rfl, ?_, ?_⟩
    · intro hin
      simp only [if_pos hin]
    · intro hout
      simp only [if_neg hout]

/-- Closed witness for `source_emit_gate`: a point source at `(5, 5)` with
`spawnRadius = 0` and rate 1, last fired at time 0, attempts at time 2000 in
the domain `[0,10]²` with no particles yet: the gate holds and the sampled
position `(5, 5)` is accepted, so the particle is appended and the timestamp
advances. -/
theorem source_emit_gate_witness :
    (sourceStep ⟨0, 0, 10, 10⟩ ⟨1, 150, 1/2, 3⟩ 2000 (fun _ => 0) []
        ⟨⟨5, 5⟩, 1, 0, 0, ⟨0, 1⟩, 0, 1⟩).2 =
      { (⟨⟨5, 5⟩, 1, 0, 0, ⟨0, 1⟩, 0, 1⟩ : ParticleSource) with lastSpawnTime := 2000 } ∧
    (sourceStep ⟨0, 0, 10, 10⟩ ⟨1, 150, 1/2, 3⟩ 2000 (fun _ => 0) []
        ⟨⟨5, 5⟩, 1, 0, 0, ⟨0, 1⟩, 0, 1⟩).1 =
      [] ++ [newSPHParticle ⟨1, 150, 1/2, 3⟩
        (sourceSample ⟨⟨5, 5⟩, 1, 0, 0, ⟨0, 1⟩, 0, 1⟩ (fun _ => 0)).1
        (sourceSample ⟨⟨5, 5⟩, 1, 0, 0, ⟨0, 1⟩, 0, 1⟩ (fun _ => 0)).2.1
        (sourceSample ⟨⟨5, 5⟩, 1, 0, 0, ⟨0, 1⟩, 0, 1⟩ (fun _ => 0)).2.2.1
        (sourceSample ⟨⟨5, 5⟩, 1, 0, 0, ⟨0, 1⟩, 0, 1⟩ (fun _ => 0)).2.2.2] := by
  have hsmp : (sourceSample ⟨⟨5, 5⟩, 1, 0, 0, ⟨0, 1⟩, 0, 1⟩ (fun _ => 0)).1 = 5 ∧
      (sourceSample ⟨⟨5, 5⟩, 1, 0, 0, ⟨0, 1⟩, 0, 1⟩ (fun _ => 0)).2.1 = 5 := by
    unfold sourceSample
    norm_num
  have h := source_emit_gate ⟨0, 0, 10, 10⟩ ⟨1, 150, 1/2, 3⟩ 2000 (fun _ => 0) []
    ⟨⟨5, 5⟩, 1, 0, 0, ⟨0, 1⟩, 0, 1⟩
  have hg : (2000 : ℝ) - (⟨⟨5, 5⟩, 1, 0, 0, ⟨0, 1⟩, 0, 1⟩ : ParticleSource).lastSpawnTime ≥
      1000 / (⟨⟨5, 5⟩, 1, 0, 0, ⟨0, 1⟩, 0, 1⟩ : ParticleSource).rate ∧
      ([] : List SPHParticle).length < SIM_MAX_PARTICLES := by
    simp [SIM_MAX_PARTICLES]
    norm_num
  have h2 := h.2 hg
  refine ⟨h2.1, h2.2.1 ?_⟩
  rw [hsmp.1, hsmp.2]
  norm_num

/-- Closed witness for `setNumParticles_fresh_allocation` at `n = 2`. -/
theorem setNumParticles_fresh_allocation_witness :
    (setNumParticlesU ⟨0, 0, 10, 10⟩ ⟨1, 150, 1/2, 3⟩ (fun _ _ => 1/4) 2 []).length = 2 ∧
    (setNumParticlesU ⟨0, 0, 10, 10⟩ ⟨1, 150, 1/2, 3⟩ (fun _ _ => 1/4) 2 []).getD 0 default
      = mkParticleU ⟨0, 0, 10, 10⟩ ⟨1, 150, 1/2, 3⟩ ((fun _ _ => (1/4 : ℝ)) 0) := by
  have h := setNumParticles_fresh_allocation ⟨0, 0, 10, 10⟩ ⟨1, 150, 1/2, 3⟩
    (fun _ _ => 1/4) 2 []
  exact ⟨h.1, h.2 0 (by norm_num)⟩

end CrowdHydro
